import Mathlib

/-!
Shallow embedding of the DDA tech demo (Game.cpp / Game.hpp / Constants.hpp).

Modelling conventions:
* C++ `int` is `Int`;  C++ `/` and `%` on `int` are `Int.tdiv` / `Int.tmod`
  (truncation toward zero).
* C++ `float` values are modelled exactly.  Every world coordinate the routine
  manipulates is an exact rational; every length along the ray is (in exact real
  arithmetic) a rational multiple `q * sqrt S` of `sqrt S`, where
  `S = dx^2 + dy^2` is the squared length of the ray direction.  We store the
  rational coefficient `q` (type `LenF`).  IEEE division by zero, which the
  source hits on axis-aligned rays when forming `ray_step_size`, produces
  `+inf`; `LenF.inf` models it.
* The conversion `(int)f` of a non-finite float is undefined behaviour in C++;
  on x86-64 (cvttss2si) it yields `INT_MIN`, which the model adopts.
-/

namespace DDADemo

/-- `constants::screen_width` (Constants.hpp). -/
def screen_width : Int := 960

/-- `constants::screen_height` (Constants.hpp). -/
def screen_height : Int := 640

/-- `cell_size_`, set to 32 in the `Game` constructor. -/
def cell_size : Int := 32

/-- `cells_width_ = constants::screen_width / cell_size_` (C++ int division). -/
def cells_width : Int := Int.tdiv screen_width cell_size

/-- `cells_height_ = constants::screen_height / cell_size_`. -/
def cells_height : Int := Int.tdiv screen_height cell_size

/-- `SDL_Rect`: integer rectangle. -/
structure SDLRect where
  x : Int
  y : Int
  w : Int
  h : Int
deriving DecidableEq, Repr

/-- `Cell` (Game.hpp): rectangle, wall flag, highlight flag. -/
structure Cell where
  rect : SDLRect
  is_wall : Bool
  highlighted : Bool
deriving DecidableEq, Repr

/-- `PlayerBox` (Game.hpp). -/
structure PlayerBox where
  box : SDLRect
  vx : Int
  vy : Int
deriving DecidableEq, Repr

/-- The `Game` state read and written by `DigitalDifferentialAnalysis`:
`board_`, `player_`, `mouse_box_`, `dda_intersection_`. -/
structure GameState where
  board : List Cell
  player : PlayerBox
  mouse_box : SDLRect
  dda_intersection : ℚ × ℚ
deriving DecidableEq, Repr

/-- A float length along the ray, stored as its rational coefficient `q`
(the modelled value is `q * Real.sqrt S`), or IEEE `+inf`. -/
inductive LenF where
  | fin (q : ℚ)
  | inf
deriving DecidableEq, Repr

/-- Float addition of two lengths (IEEE: anything plus `+inf` is `+inf`). -/
def LenF.add : LenF → LenF → LenF
  | LenF.fin a, LenF.fin b => LenF.fin (a + b)
  | _, _ => LenF.inf

/-- Float `<` on lengths (IEEE: `x < +inf` for finite `x`, `+inf < y` never). -/
def LenF.lt : LenF → LenF → Bool
  | LenF.fin a, LenF.fin b => decide (a < b)
  | LenF.fin _, LenF.inf => true
  | LenF.inf, _ => false

/-- Multiplication of a length by a nonnegative rational scalar `c`
(IEEE: `c * +inf = +inf`; every scalar the routine uses is nonnegative). -/
def LenF.scale (c : ℚ) : LenF → LenF
  | LenF.fin q => LenF.fin (c * q)
  | LenF.inf => LenF.inf

/-- Comparison of a length `q * sqrt S` against a plain positive rational bound
`b` (used for `distance < max_distance`): for finite `q`,
`q * sqrt S < b  ↔  q < 0 ∨ q^2 * S < b^2` (as `b > 0`); `+inf < b` is false. -/
def LenF.ltB (S : ℚ) (l : LenF) (b : ℚ) : Bool :=
  match l with
  | LenF.fin q => decide (q < 0) || decide (q ^ 2 * S < b ^ 2)
  | LenF.inf => false

/-- A float world coordinate: finite (exact rational) or an IEEE special value
produced when an infinite ray length is multiplied by a unit-direction
component. -/
inductive FVal where
  | fin (q : ℚ)
  | pinf
  | ninf
  | nan
deriving DecidableEq, Repr

/-- `u * l` where `u` is the coefficient of a unit-direction component (value
`u * sqrt S`) and `l` a length (value `q * sqrt S`): the product is the exact
rational `u * q * S`.  IEEE: `u * +inf` is `±inf` for `u ≠ 0` and NaN for
`u = 0`. -/
def FVal.mulUnitLen (u S : ℚ) : LenF → FVal
  | LenF.fin q => FVal.fin (u * q * S)
  | LenF.inf =>
    if u > 0 then FVal.pinf else if u < 0 then FVal.ninf else FVal.nan

/-- Float addition of an exact rational and an `FVal`. -/
def FVal.addC (a : ℚ) : FVal → FVal
  | FVal.fin q => FVal.fin (a + q)
  | v => v

/-- `INT_MIN`, the x86-64 result of `(int)f` for non-finite or out-of-range
float `f` (undefined behaviour in C++; `cvttss2si` yields this value). -/
def int_min : Int := -(2 ^ 31)

/-- Truncation toward zero of an exact rational (C++ `(int)` on a float that
holds this exact value). -/
def ratTrunc (q : ℚ) : Int := Int.tdiv q.num (q.den : Int)

/-- C++ `(int)` conversion of a modelled float coordinate. -/
def FVal.trunc : FVal → Int
  | FVal.fin q => ratTrunc q
  | _ => int_min

/-- Default cell (only used to express in-range `std::vector` indexing with
`List.getD`; every access is bounds-checked first, as in the source). -/
def cellD : Cell := { rect := ⟨0, 0, 0, 0⟩, is_wall := false, highlighted := false }

/-- `max_distance = std::max(screen_width, screen_height) * 10.0f`
(line 384). -/
def max_distance : ℚ := ((max screen_width screen_height : Int) : ℚ) * 10

/-- Lines 402–413: bounds test and wall test for the current map cell.
Returns the flat board index when the bounds test passes and that cell is a
wall (the source then highlights it and stops). -/
def wallIndex (board : List Cell) (mcx mcy : Int) : Option Nat :=
  let x_index := Int.tdiv mcx cell_size
  let y_index := Int.tdiv mcy cell_size
  let index := y_index * cells_width + x_index
  if 0 ≤ index ∧ index < (board.length : Int) then
    if (board.getD index.toNat cellD).is_wall then some index.toNat else none
  else none

/-- Traversal state of the loop at lines 387–414: current map cell
(`map_check`), per-axis accumulated ray lengths (`ray_length`), and the
recorded `distance`. -/
structure TravState where
  mapx : Int
  mapy : Int
  rlx : LenF
  rly : LenF
  dist : LenF
deriving DecidableEq, Repr

/-- The advance step inside the loop (lines 389–400): move along whichever
axis has the (strictly) smaller accumulated ray length — ties advance `y`. -/
def advance (stepx stepy : Int) (ssx ssy : LenF) (st : TravState) : TravState :=
  if st.rlx.lt st.rly then
    { st with mapx := st.mapx + stepx, dist := st.rlx, rlx := st.rlx.add ssx }
  else
    { st with mapy := st.mapy + stepy, dist := st.rly, rly := st.rly.add ssy }

/-- The traversal loop (lines 387–414) with explicit fuel.  Each iteration:
if `tile_found` is still false and `distance < max_distance`, advance one
cell, then run the bounds/wall test; a wall ends the traversal with its flat
index.  `none` means the fuel ran out (never happens for fuel 1000, see the
termination theorem). -/
def ddaLoop (board : List Cell) (S : ℚ) (stepx stepy : Int) (ssx ssy : LenF) :
    Nat → TravState → Option (Option Nat × TravState)
  | 0, _ => none
  | n + 1, st =>
    if st.dist.ltB S max_distance then
      let st' := advance stepx stepy ssx ssy st
      match wallIndex board st'.mapx st'.mapy with
      | some i => some (some i, st')
      | none => ddaLoop board S stepx stepy ssx ssy n st'
    else
      some (none, st)

/-- `player_.box_.x + (player_.box_.w / 2)` (line 281; C++ int division). -/
def playerCenterX (g : GameState) : Int :=
  g.player.box.x + Int.tdiv g.player.box.w 2

def playerCenterY (g : GameState) : Int :=
  g.player.box.y + Int.tdiv g.player.box.h 2

/-- `mouse_box_.x + (mouse_box_.w / 2)` (line 282). -/
def mouseCenterX (g : GameState) : Int :=
  g.mouse_box.x + Int.tdiv g.mouse_box.w 2

def mouseCenterY (g : GameState) : Int :=
  g.mouse_box.y + Int.tdiv g.mouse_box.h 2

/-- The guard at lines 284–292: the routine returns immediately when either
center lies outside `[0, screen_width] × [0, screen_height]`. -/
def aborts (g : GameState) : Bool :=
  decide (playerCenterX g < 0) || decide (playerCenterX g > screen_width) ||
  decide (playerCenterY g < 0) || decide (playerCenterY g > screen_height) ||
  decide (mouseCenterX g < 0) || decide (mouseCenterX g > screen_width) ||
  decide (mouseCenterY g < 0) || decide (mouseCenterY g > screen_height)

/-- Everything the routine computes before the loop (lines 294–381). -/
structure SetupData where
  ox : ℚ
  oy : ℚ
  dx : ℚ
  dy : ℚ
  S : ℚ
  ux : ℚ
  uy : ℚ
  ssx : LenF
  ssy : LenF
  stepx : Int
  stepy : Int
  st0 : TravState
deriving DecidableEq, Repr

/-- Models line 302, `sqrt(1 + (b/a)^2)` applied to the components of the
scaled direction `ray_dir` (coefficients `a`, `b`, values `a*sqrt S`,
`b*sqrt S`).  The quotient of the components equals the rational `b/a`, and
as real numbers `a^2*S + b^2*S = cell_size^2`, so for `a ≠ 0`
`sqrt(1 + (b/a)^2) = cell_size / (sqrt S * |a|) = (cell_size/(S*|a|)) * sqrt S`.
For `a = 0` (axis-aligned ray) the source divides by zero: IEEE gives `±inf`,
whose square then makes the whole expression `+inf`. -/
def sqrtOnePlusRatioSq (a S : ℚ) : LenF :=
  if a = 0 then LenF.inf else LenF.fin ((cell_size : ℚ) / (S * |a|))

/-- Lines 294–381 of `DigitalDifferentialAnalysis`: direction, unit direction,
step sizes, initial map cell, per-axis signs and initial ray lengths, and the
post-initialization adjustment of the map cell. -/
def ddaSetup (g : GameState) : SetupData :=
  -- line 294: ray_start = player center (exact, the centers are ints)
  let ox : ℚ := (playerCenterX g : ℚ)
  let oy : ℚ := (playerCenterY g : ℚ)
  -- line 296: ray_dir = mouse_pos - player_pos (before SetLength)
  let dx : ℚ := ((mouseCenterX g - playerCenterX g : Int) : ℚ)
  let dy : ℚ := ((mouseCenterY g - playerCenterY g : Int) : ℚ)
  let S : ℚ := dx ^ 2 + dy ^ 2
  -- line 297: ray_dir.SetLength(cell_size): ray_dir = (dx,dy) * cell_size/sqrt S,
  -- so its components have sqrt S coefficients (cell_size*dx/S, cell_size*dy/S).
  -- (For S = 0 the source divides 0 by 0 — NaN; the model's junk value is 0.)
  let rdx : ℚ := (cell_size : ℚ) * dx / S
  let rdy : ℚ := (cell_size : ℚ) * dy / S
  -- lines 299–300: unit_ray_dir = (dx,dy)/sqrt S: coefficients (dx/S, dy/S)
  let ux : ℚ := dx / S
  let uy : ℚ := dy / S
  -- lines 302–304: ray_step_size, multiplied componentwise by cell_size
  let ssx : LenF := (sqrtOnePlusRatioSq rdx S).scale (cell_size : ℚ)
  let ssy : LenF := (sqrtOnePlusRatioSq rdy S).scale (cell_size : ℚ)
  -- lines 306–308: map_check = ray_start snapped down to the cell grid
  let mcx0 : Int := ratTrunc ox - Int.tmod (ratTrunc ox) cell_size
  let mcy0 : Int := ratTrunc oy - Int.tmod (ratTrunc oy) cell_size
  -- lines 310–349: step signs and initial accumulated ray lengths
  let stepx : Int := if rdx < 0 then -cell_size else cell_size
  let rlx : LenF :=
    if rdx < 0 then
      if Int.tmod (ratTrunc ox) cell_size = 0 then ssx
      else ssx.scale ((ox - (mcx0 : ℚ)) / (cell_size : ℚ))
    else ssx.scale ((((mcx0 + cell_size : Int) : ℚ) - ox) / (cell_size : ℚ))
  let stepy : Int := if rdy < 0 then -cell_size else cell_size
  let rly : LenF :=
    if rdy < 0 then
      if Int.tmod (ratTrunc oy) cell_size = 0 then ssy
      else ssy.scale ((oy - (mcy0 : ℚ)) / (cell_size : ℚ))
    else ssy.scale ((((mcy0 + cell_size : Int) : ℚ) - oy) / (cell_size : ℚ))
  -- lines 351–352: intersection points at the first vertical / horizontal
  -- grid-line crossings (only the coordinates the source later reads)
  let xix : FVal := FVal.addC ox (FVal.mulUnitLen ux S rlx)
  let yiy : FVal := FVal.addC oy (FVal.mulUnitLen uy S rly)
  -- lines 354–381: adjustment of the starting map cell
  let mc1 : Int × Int :=
    if rlx.lt rly then
      ( (if rdx > 0 then xix.trunc - cell_size else xix.trunc),
        (if Int.tmod (ratTrunc oy) cell_size = 0 ∧ rdy < 0 then mcy0 - cell_size
         else mcy0) )
    else
      ( (if rdx > 0 then xix.trunc - cell_size else xix.trunc),
        (if rdy < 0 then yiy.trunc else mcy0) )
  { ox := ox, oy := oy, dx := dx, dy := dy, S := S, ux := ux, uy := uy,
    ssx := ssx, ssy := ssy, stepx := stepx, stepy := stepy,
    st0 := { mapx := mc1.1, mapy := mc1.2, rlx := rlx, rly := rly,
             dist := LenF.fin 0 } }

/-- Fuel for the traversal loop; 1000 iterations always suffice (the loop
stops within `2 * max_distance / cell_size + 4` steps). -/
def ddaFuel : Nat := 1000

/-- The traversal loop of a (non-aborted) cast, run from the computed setup. -/
def ddaLoopRun (g : GameState) : Option (Option Nat × TravState) :=
  let sd := ddaSetup g
  ddaLoop g.board sd.S sd.stepx sd.stepy sd.ssx sd.ssy ddaFuel sd.st0

/-- The flat board index of the wall cell a cast finds, if any (an aborted
cast never runs the loop and finds nothing). -/
def ddaFoundIdx (g : GameState) : Option Nat :=
  if aborts g then none
  else
    match ddaLoopRun g with
    | some (some i, _) => some i
    | _ => none

/-- The recorded `distance` at loop exit (0 for an aborted cast, which never
runs the loop). -/
def ddaDist (g : GameState) : LenF :=
  if aborts g then LenF.fin 0
  else
    match ddaLoopRun g with
    | some (_, st) => st.dist
    | none => LenF.fin 0

/-- Line 418: `dda_intersection_ = ray_start + unit_ray_dir * distance`.
`unit_ray_dir.x * distance = (ux*sqrt S)*(q*sqrt S) = ux*q*S` exactly.  The
`LenF.inf` branch is unreachable for a found tile. -/
def hitPoint (sd : SetupData) : LenF → ℚ × ℚ
  | LenF.fin q => (sd.ox + sd.ux * q * sd.S, sd.oy + sd.uy * q * sd.S)
  | LenF.inf => (sd.ox, sd.oy)

/-- `Game::DigitalDifferentialAnalysis` (lines 279–424) as a state transformer.
The source sets `highlighted_ = true` at the moment the wall is found and then
immediately leaves the loop; the model performs that single write after the
loop, which yields the same final state. -/
def dda (g : GameState) : GameState :=
  if aborts g then g
  else
    match ddaLoopRun g with
    | some (some i, st) =>
      { g with
        board := g.board.set i { g.board.getD i cellD with highlighted := true },
        dda_intersection := hitPoint (ddaSetup g) st.dist }
    | some (none, _) => { g with dda_intersection := (-1, -1) }
    | none => { g with dda_intersection := (-1, -1) }

end DDADemo

namespace DDADemo

/-- The board as built by the `Game` constructor (lines 24–39): one cell per
grid position, rectangles derived from the index, no walls, no highlights. -/
def initBoard : List Cell :=
  (List.range (cells_width * cells_height).toNat).map (fun i =>
    let x : Int := Int.tmod (i : Int) cells_width
    let y : Int := Int.tdiv (i : Int) cells_width
    { rect := ⟨x * cell_size, y * cell_size, cell_size, cell_size⟩,
      is_wall := false, highlighted := false })

/-- Wall placement as performed by the right-click handler (lines 188–190):
set `is_wall_` of the cell at grid coordinate `(cx, cy)`. -/
def setWall (b : List Cell) (cx cy : Int) : List Cell :=
  b.set (cy * cells_width + cx).toNat
    { b.getD (cy * cells_width + cx).toNat cellD with is_wall := true }

/-- A game state with the player box centered at `(px, py)`, the mouse box
centered at `(mx, my)` (the boxes are 10×10, as in the constructor), and the
given wall cells placed on the constructor board. -/
def mkG (px py mx my : Int) (walls : List (Int × Int)) : GameState :=
  { board := walls.foldl (fun b w => setWall b w.1 w.2) initBoard,
    player := { box := ⟨px - 5, py - 5, 10, 10⟩, vx := 0, vy := 0 },
    mouse_box := ⟨mx - 5, my - 5, 10, 10⟩,
    dda_intersection := (-1, -1) }

/-- Termination measure for the traversal loop: with `M = max |dx| |dy|`, an
upper bound on how many more times the given axis can be advanced before its
accumulated ray length reaches the distance ceiling. -/
def stepsLeft (M : ℚ) (ss l : LenF) : Nat :=
  match l, ss with
  | LenF.fin q, LenF.fin s => (⌈(max_distance / M - q) / s⌉).toNat + 1
  | _, _ => 0

end DDADemo
namespace DDADemo

set_option maxRecDepth 100000

theorem LenF.lt_irrefl (l : LenF) : l.lt l = false := by
  cases l <;> simp [LenF.lt]

theorem ratTrunc_intCast (n : Int) : ratTrunc ((n : Int) : ℚ) = n := by
  simp [ratTrunc, Rat.num_intCast, Rat.den_intCast, Int.tdiv_one]

/-- C4 (amended): when the player or mouse center lies outside the world
bounds `[0, screen_width] × [0, screen_height]`, the cast is aborted with the
entire game state unchanged — in particular the previously stored intersection
point persists instead of being reset to Miss. -/
theorem c4_abort_leaves_state_unchanged (g : GameState) (h : aborts g = true) :
    dda g = g := by
  simp [dda, h]

/-- C4 witness: a cast whose player center `(1000, 176)` lies beyond the right
world edge leaves the state unchanged. -/
theorem c4_abort_leaves_state_unchanged_witness :
    aborts (mkG 1000 176 500 176 []) = true ∧
      dda (mkG 1000 176 500 176 []) = mkG 1000 176 500 176 [] :=
  ⟨by decide, c4_abort_leaves_state_unchanged _ (by decide)⟩

/-- C4 counterexample: the claim promises a Miss result for an out-of-bounds
cast; instead the early return leaves the previously stored intersection
`(123, 45)` in place, so the reported result is not Miss. -/
theorem c4_counterexample :
    aborts { mkG 1000 176 500 176 [] with dda_intersection := (123, 45) } = true ∧
    (dda { mkG 1000 176 500 176 [] with dda_intersection := (123, 45) }).dda_intersection
        = (123, 45) ∧
    (dda { mkG 1000 176 500 176 [] with dda_intersection := (123, 45) }).dda_intersection
        ≠ (-1, -1) := by
  have ha : aborts { mkG 1000 176 500 176 [] with dda_intersection := ((123 : ℚ), (45 : ℚ)) } = true := by
    decide
  refine ⟨ha, ?_, ?_⟩ <;>
    simp [dda, ha, Prod.ext_iff] <;> norm_num

/-- C7 (amended): every iteration of the traversal loop advances exactly one
axis: `x` when `rayLength.x < rayLength.y` and `y` otherwise — on an exact tie
of the two accumulators only the `y` axis advances.  The advanced axis's map
coordinate moves by that axis's step, the pre-advance rayLength is recorded as
the distance, and that axis's stepSize is added to its accumulator. -/
theorem c7_advance_characterization (stepx stepy : Int) (ssx ssy : LenF)
    (st : TravState) :
    (st.rlx.lt st.rly = true →
      advance stepx stepy ssx ssy st =
        { st with mapx := st.mapx + stepx, dist := st.rlx, rlx := st.rlx.add ssx }) ∧
    (st.rlx.lt st.rly = false →
      advance stepx stepy ssx ssy st =
        { st with mapy := st.mapy + stepy, dist := st.rly, rly := st.rly.add ssy }) ∧
    (st.rlx = st.rly →
      advance stepx stepy ssx ssy st =
        { st with mapy := st.mapy + stepy, dist := st.rly, rly := st.rly.add ssy }) := by
  refine ⟨fun h => ?_, fun h => ?_, fun h => ?_⟩
  · simp [advance, h]
  · simp [advance, h]
  · simp [advance, h, LenF.lt_irrefl]

/-- C7 witness: a strict-inequality iteration advances the `x` axis, and a
tied iteration advances only the `y` axis. -/
theorem c7_advance_characterization_witness :
    advance 1 2 (LenF.fin 5) (LenF.fin 7) ⟨0, 0, LenF.fin 1, LenF.fin 2, LenF.fin 0⟩
        = ⟨1, 0, LenF.fin 6, LenF.fin 2, LenF.fin 1⟩ ∧
    advance 1 2 (LenF.fin 5) (LenF.fin 7) ⟨0, 0, LenF.fin 3, LenF.fin 3, LenF.fin 0⟩
        = ⟨0, 2, LenF.fin 3, LenF.fin 10, LenF.fin 3⟩ := by
  constructor
  · have h := (c7_advance_characterization 1 2 (LenF.fin 5) (LenF.fin 7)
      ⟨0, 0, LenF.fin 1, LenF.fin 2, LenF.fin 0⟩).1 (by norm_num [LenF.lt])
    norm_num [LenF.add] at h
    exact h
  · have h := (c7_advance_characterization 1 2 (LenF.fin 5) (LenF.fin 7)
      ⟨0, 0, LenF.fin 3, LenF.fin 3, LenF.fin 0⟩).2.2 rfl
    norm_num [LenF.add] at h
    exact h

end DDADemo
namespace DDADemo

set_option maxRecDepth 100000

theorem wallIndex_some_spec (board : List Cell) (mcx mcy : Int) (i : Nat)
    (h : wallIndex board mcx mcy = some i) :
    (i : Int) = Int.tdiv mcy cell_size * cells_width + Int.tdiv mcx cell_size ∧
    i < board.length ∧ (board.getD i cellD).is_wall = true := by
  simp only [wallIndex] at h
  split at h
  · split at h
    · rename_i hrange hwall
      obtain ⟨h0, hlen⟩ := hrange
      injection h with h
      subst h
      refine ⟨by omega, by omega, hwall⟩
    · exact absurd h (by simp)
  · exact absurd h (by simp)

theorem ddaLoop_continue (board : List Cell) (S : ℚ) (stepx stepy : Int)
    (ssx ssy : LenF) (n : Nat) (st : TravState)
    (h1 : st.dist.ltB S max_distance = true)
    (h2 : wallIndex board (advance stepx stepy ssx ssy st).mapx
            (advance stepx stepy ssx ssy st).mapy = none) :
    ddaLoop board S stepx stepy ssx ssy (n + 1) st =
      ddaLoop board S stepx stepy ssx ssy n (advance stepx stepy ssx ssy st) := by
  rw [ddaLoop]
  simp only [h1, if_true, h2]

theorem ddaLoop_found (board : List Cell) (S : ℚ) (stepx stepy : Int)
    (ssx ssy : LenF) (n : Nat) (st : TravState) (i : Nat)
    (h1 : st.dist.ltB S max_distance = true)
    (h2 : wallIndex board (advance stepx stepy ssx ssy st).mapx
            (advance stepx stepy ssx ssy st).mapy = some i) :
    ddaLoop board S stepx stepy ssx ssy (n + 1) st =
      some (some i, advance stepx stepy ssx ssy st) := by
  rw [ddaLoop]
  simp only [h1, if_true, h2]

theorem ddaLoop_stop (board : List Cell) (S : ℚ) (stepx stepy : Int)
    (ssx ssy : LenF) (n : Nat) (st : TravState)
    (h1 : st.dist.ltB S max_distance = false) :
    ddaLoop board S stepx stepy ssx ssy (n + 1) st = some (none, st) := by
  rw [ddaLoop]
  simp only [h1, if_false]
  simp

theorem ddaLoop_found_spec (board : List Cell) (S : ℚ)
    (stepx stepy : Int) (ssx ssy : LenF) :
    ∀ (n : Nat) (st : TravState) (i : Nat) (st' : TravState),
      ddaLoop board S stepx stepy ssx ssy n st = some (some i, st') →
      (i : Int) = Int.tdiv st'.mapy cell_size * cells_width +
          Int.tdiv st'.mapx cell_size ∧
      i < board.length ∧ (board.getD i cellD).is_wall = true := by
  intro n
  induction n with
  | zero => intro st i st' h; exact absurd h (by simp [ddaLoop])
  | succ n ih =>
    intro st i st' h
    simp only [ddaLoop] at h
    split at h
    · rename_i h1
      revert h
      split
      · rename_i j hw
        intro h
        simp only [Option.some.injEq, Prod.mk.injEq] at h
        obtain ⟨ha, hb⟩ := h
        subst ha
        subst hb
        exact wallIndex_some_spec _ _ _ _ hw
      · rename_i hw
        intro h
        exact ih _ _ _ h
    · rename_i h1
      simp only [Option.some.injEq, Prod.mk.injEq] at h
      exact absurd h.1 (by simp)

end DDADemo
namespace DDADemo

set_option maxRecDepth 100000

theorem c2run_setup : ddaSetup (mkG 900 176 940 176 [(0, 6)]) =
    { ox := 900, oy := 176, dx := 40, dy := 0, S := 1600, ux := 1/40, uy := 0,
      ssx := LenF.fin (4/5), ssy := LenF.inf, stepx := 32, stepy := 32,
      st0 := ⟨896, 160, LenF.fin (7/10), LenF.inf, LenF.fin 0⟩ } := by
  have hpx : playerCenterX (mkG 900 176 940 176 [(0, 6)]) = 900 := by decide
  have hpy : playerCenterY (mkG 900 176 940 176 [(0, 6)]) = 176 := by decide
  have hmx : mouseCenterX (mkG 900 176 940 176 [(0, 6)]) = 940 := by decide
  have hmy : mouseCenterY (mkG 900 176 940 176 [(0, 6)]) = 176 := by decide
  have ht1 : Int.tmod (900 : Int) 32 = 4 := by decide
  have ht2 : Int.tmod (176 : Int) 32 = 16 := by decide
  norm_num [ddaSetup, hpx, hpy, hmx, hmy, ht1, ht2, ratTrunc,
    sqrtOnePlusRatioSq, LenF.scale, LenF.lt, FVal.addC, FVal.mulUnitLen,
    FVal.trunc, cell_size, abs_of_pos, Rat.num_ofNat, Rat.den_ofNat,
    Int.tdiv_one]

theorem c2run : ddaLoopRun (mkG 900 176 940 176 [(0, 6)]) =
    some (some 180, ⟨960, 160, LenF.fin (23/10), LenF.inf, LenF.fin (3/2)⟩) := by
  have hadv1 : advance 32 32 (LenF.fin (4/5)) LenF.inf
      ⟨896, 160, LenF.fin (7/10), LenF.inf, LenF.fin 0⟩
      = ⟨928, 160, LenF.fin (3/2), LenF.inf, LenF.fin (7/10)⟩ := by
    norm_num [advance, LenF.lt, LenF.add]
  have hadv2 : advance 32 32 (LenF.fin (4/5)) LenF.inf
      ⟨928, 160, LenF.fin (3/2), LenF.inf, LenF.fin (7/10)⟩
      = ⟨960, 160, LenF.fin (23/10), LenF.inf, LenF.fin (3/2)⟩ := by
    norm_num [advance, LenF.lt, LenF.add]
  have hw1 : wallIndex (mkG 900 176 940 176 [(0, 6)]).board 928 160 = none := by
    decide
  have hw2 : wallIndex (mkG 900 176 940 176 [(0, 6)]).board 960 160 = some 180 := by
    decide
  simp only [ddaLoopRun, c2run_setup, ddaFuel]
  rw [show (1000 : Nat) = 999 + 1 from rfl,
    ddaLoop_continue _ _ _ _ _ _ _ _ (by norm_num [LenF.ltB, max_distance,
      screen_width, screen_height]) (by rw [hadv1]; exact hw1), hadv1]
  rw [show (999 : Nat) = 998 + 1 from rfl,
    ddaLoop_found _ _ _ _ _ _ _ _ _ (by norm_num [LenF.ltB, max_distance,
      screen_width, screen_height]) (by rw [hadv2]; exact hw2), hadv2]

end DDADemo
namespace DDADemo

set_option maxRecDepth 100000

theorem scenario_setup : ddaSetup (mkG 0 176 640 176 [(10, 5)]) =
    { ox := 0, oy := 176, dx := 640, dy := 0, S := 409600, ux := (1/640), uy := 0,
      ssx := LenF.fin (1/20), ssy := LenF.inf, stepx := 32, stepy := 32,
      st0 := ⟨0, 160, LenF.fin (1/20), LenF.inf, LenF.fin 0⟩ } := by
  have hpx : playerCenterX (mkG 0 176 640 176 [(10, 5)]) = 0 := by decide
  have hpy : playerCenterY (mkG 0 176 640 176 [(10, 5)]) = 176 := by decide
  have hmx : mouseCenterX (mkG 0 176 640 176 [(10, 5)]) = 640 := by decide
  have hmy : mouseCenterY (mkG 0 176 640 176 [(10, 5)]) = 176 := by decide
  have ht1 : Int.tmod (0 : Int) 32 = 0 := by decide
  have ht2 : Int.tmod (176 : Int) 32 = 16 := by decide
  norm_num [ddaSetup, hpx, hpy, hmx, hmy, ht1, ht2, ratTrunc,
    sqrtOnePlusRatioSq, LenF.scale, LenF.lt, FVal.addC, FVal.mulUnitLen,
    FVal.trunc, cell_size, abs_of_pos, abs_of_neg, Rat.num_ofNat, Rat.den_ofNat,
    Int.tdiv_one]

theorem scenario_run : ddaLoopRun (mkG 0 176 640 176 [(10, 5)]) =
    some (some 160, ⟨320, 160, LenF.fin (11/20), LenF.inf, LenF.fin (1/2)⟩) := by
  have hadv0 : advance 32 32 (LenF.fin (1/20)) (LenF.inf)
      ⟨0, 160, LenF.fin (1/20), LenF.inf, LenF.fin 0⟩
      = ⟨32, 160, LenF.fin (1/10), LenF.inf, LenF.fin (1/20)⟩ := by
    norm_num [advance, LenF.lt, LenF.add]
  have hadv1 : advance 32 32 (LenF.fin (1/20)) (LenF.inf)
      ⟨32, 160, LenF.fin (1/10), LenF.inf, LenF.fin (1/20)⟩
      = ⟨64, 160, LenF.fin (3/20), LenF.inf, LenF.fin (1/10)⟩ := by
    norm_num [advance, LenF.lt, LenF.add]
  have hadv2 : advance 32 32 (LenF.fin (1/20)) (LenF.inf)
      ⟨64, 160, LenF.fin (3/20), LenF.inf, LenF.fin (1/10)⟩
      = ⟨96, 160, LenF.fin (1/5), LenF.inf, LenF.fin (3/20)⟩ := by
    norm_num [advance, LenF.lt, LenF.add]
  have hadv3 : advance 32 32 (LenF.fin (1/20)) (LenF.inf)
      ⟨96, 160, LenF.fin (1/5), LenF.inf, LenF.fin (3/20)⟩
      = ⟨128, 160, LenF.fin (1/4), LenF.inf, LenF.fin (1/5)⟩ := by
    norm_num [advance, LenF.lt, LenF.add]
  have hadv4 : advance 32 32 (LenF.fin (1/20)) (LenF.inf)
      ⟨128, 160, LenF.fin (1/4), LenF.inf, LenF.fin (1/5)⟩
      = ⟨160, 160, LenF.fin (3/10), LenF.inf, LenF.fin (1/4)⟩ := by
    norm_num [advance, LenF.lt, LenF.add]
  have hadv5 : advance 32 32 (LenF.fin (1/20)) (LenF.inf)
      ⟨160, 160, LenF.fin (3/10), LenF.inf, LenF.fin (1/4)⟩
      = ⟨192, 160, LenF.fin (7/20), LenF.inf, LenF.fin (3/10)⟩ := by
    norm_num [advance, LenF.lt, LenF.add]
  have hadv6 : advance 32 32 (LenF.fin (1/20)) (LenF.inf)
      ⟨192, 160, LenF.fin (7/20), LenF.inf, LenF.fin (3/10)⟩
      = ⟨224, 160, LenF.fin (2/5), LenF.inf, LenF.fin (7/20)⟩ := by
    norm_num [advance, LenF.lt, LenF.add]
  have hadv7 : advance 32 32 (LenF.fin (1/20)) (LenF.inf)
      ⟨224, 160, LenF.fin (2/5), LenF.inf, LenF.fin (7/20)⟩
      = ⟨256, 160, LenF.fin (9/20), LenF.inf, LenF.fin (2/5)⟩ := by
    norm_num [advance, LenF.lt, LenF.add]
  have hadv8 : advance 32 32 (LenF.fin (1/20)) (LenF.inf)
      ⟨256, 160, LenF.fin (9/20), LenF.inf, LenF.fin (2/5)⟩
      = ⟨288, 160, LenF.fin (1/2), LenF.inf, LenF.fin (9/20)⟩ := by
    norm_num [advance, LenF.lt, LenF.add]
  have hadv9 : advance 32 32 (LenF.fin (1/20)) (LenF.inf)
      ⟨288, 160, LenF.fin (1/2), LenF.inf, LenF.fin (9/20)⟩
      = ⟨320, 160, LenF.fin (11/20), LenF.inf, LenF.fin (1/2)⟩ := by
    norm_num [advance, LenF.lt, LenF.add]
  have hw0 : wallIndex (mkG 0 176 640 176 [(10, 5)]).board 32 160 = none := by decide
  have hw1 : wallIndex (mkG 0 176 640 176 [(10, 5)]).board 64 160 = none := by decide
  have hw2 : wallIndex (mkG 0 176 640 176 [(10, 5)]).board 96 160 = none := by decide
  have hw3 : wallIndex (mkG 0 176 640 176 [(10, 5)]).board 128 160 = none := by decide
  have hw4 : wallIndex (mkG 0 176 640 176 [(10, 5)]).board 160 160 = none := by decide
  have hw5 : wallIndex (mkG 0 176 640 176 [(10, 5)]).board 192 160 = none := by decide
  have hw6 : wallIndex (mkG 0 176 640 176 [(10, 5)]).board 224 160 = none := by decide
  have hw7 : wallIndex (mkG 0 176 640 176 [(10, 5)]).board 256 160 = none := by decide
  have hw8 : wallIndex (mkG 0 176 640 176 [(10, 5)]).board 288 160 = none := by decide
  have hw9 : wallIndex (mkG 0 176 640 176 [(10, 5)]).board 320 160 = some 160 := by decide
  simp only [ddaLoopRun, scenario_setup, ddaFuel]
  rw [show (1000 : Nat) = 999 + 1 from rfl,
    ddaLoop_continue _ _ _ _ _ _ _ _ (by norm_num [LenF.ltB, max_distance,
      screen_width, screen_height]) (by rw [hadv0]; exact hw0), hadv0]
  rw [show (999 : Nat) = 998 + 1 from rfl,
    ddaLoop_continue _ _ _ _ _ _ _ _ (by norm_num [LenF.ltB, max_distance,
      screen_width, screen_height]) (by rw [hadv1]; exact hw1), hadv1]
  rw [show (998 : Nat) = 997 + 1 from rfl,
    ddaLoop_continue _ _ _ _ _ _ _ _ (by norm_num [LenF.ltB, max_distance,
      screen_width, screen_height]) (by rw [hadv2]; exact hw2), hadv2]
  rw [show (997 : Nat) = 996 + 1 from rfl,
    ddaLoop_continue _ _ _ _ _ _ _ _ (by norm_num [LenF.ltB, max_distance,
      screen_width, screen_height]) (by rw [hadv3]; exact hw3), hadv3]
  rw [show (996 : Nat) = 995 + 1 from rfl,
    ddaLoop_continue _ _ _ _ _ _ _ _ (by norm_num [LenF.ltB, max_distance,
      screen_width, screen_height]) (by rw [hadv4]; exact hw4), hadv4]
  rw [show (995 : Nat) = 994 + 1 from rfl,
    ddaLoop_continue _ _ _ _ _ _ _ _ (by norm_num [LenF.ltB, max_distance,
      screen_width, screen_height]) (by rw [hadv5]; exact hw5), hadv5]
  rw [show (994 : Nat) = 993 + 1 from rfl,
    ddaLoop_continue _ _ _ _ _ _ _ _ (by norm_num [LenF.ltB, max_distance,
      screen_width, screen_height]) (by rw [hadv6]; exact hw6), hadv6]
  rw [show (993 : Nat) = 992 + 1 from rfl,
    ddaLoop_continue _ _ _ _ _ _ _ _ (by norm_num [LenF.ltB, max_distance,
      screen_width, screen_height]) (by rw [hadv7]; exact hw7), hadv7]
  rw [show (992 : Nat) = 991 + 1 from rfl,
    ddaLoop_continue _ _ _ _ _ _ _ _ (by norm_num [LenF.ltB, max_distance,
      screen_width, screen_height]) (by rw [hadv8]; exact hw8), hadv8]
  rw [show (991 : Nat) = 990 + 1 from rfl,
    ddaLoop_found _ _ _ _ _ _ _ _ _ (by norm_num [LenF.ltB, max_distance,
      screen_width, screen_height]) (by rw [hadv9]; exact hw9), hadv9]

theorem c1cex_setup : ddaSetup (mkG 330 170 400 170 [(10, 5), (12, 5)]) =
    { ox := 330, oy := 170, dx := 70, dy := 0, S := 4900, ux := (1/70), uy := 0,
      ssx := LenF.fin (16/35), ssy := LenF.inf, stepx := 32, stepy := 32,
      st0 := ⟨320, 160, LenF.fin (11/35), LenF.inf, LenF.fin 0⟩ } := by
  have hpx : playerCenterX (mkG 330 170 400 170 [(10, 5), (12, 5)]) = 330 := by decide
  have hpy : playerCenterY (mkG 330 170 400 170 [(10, 5), (12, 5)]) = 170 := by decide
  have hmx : mouseCenterX (mkG 330 170 400 170 [(10, 5), (12, 5)]) = 400 := by decide
  have hmy : mouseCenterY (mkG 330 170 400 170 [(10, 5), (12, 5)]) = 170 := by decide
  have ht1 : Int.tmod (330 : Int) 32 = 10 := by decide
  have ht2 : Int.tmod (170 : Int) 32 = 10 := by decide
  norm_num [ddaSetup, hpx, hpy, hmx, hmy, ht1, ht2, ratTrunc,
    sqrtOnePlusRatioSq, LenF.scale, LenF.lt, FVal.addC, FVal.mulUnitLen,
    FVal.trunc, cell_size, abs_of_pos, abs_of_neg, Rat.num_ofNat, Rat.den_ofNat,
    Int.tdiv_one]

theorem c1cex_run : ddaLoopRun (mkG 330 170 400 170 [(10, 5), (12, 5)]) =
    some (some 162, ⟨384, 160, LenF.fin (43/35), LenF.inf, LenF.fin (27/35)⟩) := by
  have hadv0 : advance 32 32 (LenF.fin (16/35)) (LenF.inf)
      ⟨320, 160, LenF.fin (11/35), LenF.inf, LenF.fin 0⟩
      = ⟨352, 160, LenF.fin (27/35), LenF.inf, LenF.fin (11/35)⟩ := by
    norm_num [advance, LenF.lt, LenF.add]
  have hadv1 : advance 32 32 (LenF.fin (16/35)) (LenF.inf)
      ⟨352, 160, LenF.fin (27/35), LenF.inf, LenF.fin (11/35)⟩
      = ⟨384, 160, LenF.fin (43/35), LenF.inf, LenF.fin (27/35)⟩ := by
    norm_num [advance, LenF.lt, LenF.add]
  have hw0 : wallIndex (mkG 330 170 400 170 [(10, 5), (12, 5)]).board 352 160 = none := by decide
  have hw1 : wallIndex (mkG 330 170 400 170 [(10, 5), (12, 5)]).board 384 160 = some 162 := by decide
  simp only [ddaLoopRun, c1cex_setup, ddaFuel]
  rw [show (1000 : Nat) = 999 + 1 from rfl,
    ddaLoop_continue _ _ _ _ _ _ _ _ (by norm_num [LenF.ltB, max_distance,
      screen_width, screen_height]) (by rw [hadv0]; exact hw0), hadv0]
  rw [show (999 : Nat) = 998 + 1 from rfl,
    ddaLoop_found _ _ _ _ _ _ _ _ _ (by norm_num [LenF.ltB, max_distance,
      screen_width, screen_height]) (by rw [hadv1]; exact hw1), hadv1]

theorem c10case_setup : ddaSetup (mkG 16 176 48 176 [(10, 5)]) =
    { ox := 16, oy := 176, dx := 32, dy := 0, S := 1024, ux := (1/32), uy := 0,
      ssx := LenF.fin 1, ssy := LenF.inf, stepx := 32, stepy := 32,
      st0 := ⟨0, 160, LenF.fin (1/2), LenF.inf, LenF.fin 0⟩ } := by
  have hpx : playerCenterX (mkG 16 176 48 176 [(10, 5)]) = 16 := by decide
  have hpy : playerCenterY (mkG 16 176 48 176 [(10, 5)]) = 176 := by decide
  have hmx : mouseCenterX (mkG 16 176 48 176 [(10, 5)]) = 48 := by decide
  have hmy : mouseCenterY (mkG 16 176 48 176 [(10, 5)]) = 176 := by decide
  have ht1 : Int.tmod (16 : Int) 32 = 16 := by decide
  have ht2 : Int.tmod (176 : Int) 32 = 16 := by decide
  norm_num [ddaSetup, hpx, hpy, hmx, hmy, ht1, ht2, ratTrunc,
    sqrtOnePlusRatioSq, LenF.scale, LenF.lt, FVal.addC, FVal.mulUnitLen,
    FVal.trunc, cell_size, abs_of_pos, abs_of_neg, Rat.num_ofNat, Rat.den_ofNat,
    Int.tdiv_one]

theorem c10case_run : ddaLoopRun (mkG 16 176 48 176 [(10, 5)]) =
    some (some 160, ⟨320, 160, LenF.fin (21/2), LenF.inf, LenF.fin (19/2)⟩) := by
  have hadv0 : advance 32 32 (LenF.fin 1) (LenF.inf)
      ⟨0, 160, LenF.fin (1/2), LenF.inf, LenF.fin 0⟩
      = ⟨32, 160, LenF.fin (3/2), LenF.inf, LenF.fin (1/2)⟩ := by
    norm_num [advance, LenF.lt, LenF.add]
  have hadv1 : advance 32 32 (LenF.fin 1) (LenF.inf)
      ⟨32, 160, LenF.fin (3/2), LenF.inf, LenF.fin (1/2)⟩
      = ⟨64, 160, LenF.fin (5/2), LenF.inf, LenF.fin (3/2)⟩ := by
    norm_num [advance, LenF.lt, LenF.add]
  have hadv2 : advance 32 32 (LenF.fin 1) (LenF.inf)
      ⟨64, 160, LenF.fin (5/2), LenF.inf, LenF.fin (3/2)⟩
      = ⟨96, 160, LenF.fin (7/2), LenF.inf, LenF.fin (5/2)⟩ := by
    norm_num [advance, LenF.lt, LenF.add]
  have hadv3 : advance 32 32 (LenF.fin 1) (LenF.inf)
      ⟨96, 160, LenF.fin (7/2), LenF.inf, LenF.fin (5/2)⟩
      = ⟨128, 160, LenF.fin (9/2), LenF.inf, LenF.fin (7/2)⟩ := by
    norm_num [advance, LenF.lt, LenF.add]
  have hadv4 : advance 32 32 (LenF.fin 1) (LenF.inf)
      ⟨128, 160, LenF.fin (9/2), LenF.inf, LenF.fin (7/2)⟩
      = ⟨160, 160, LenF.fin (11/2), LenF.inf, LenF.fin (9/2)⟩ := by
    norm_num [advance, LenF.lt, LenF.add]
  have hadv5 : advance 32 32 (LenF.fin 1) (LenF.inf)
      ⟨160, 160, LenF.fin (11/2), LenF.inf, LenF.fin (9/2)⟩
      = ⟨192, 160, LenF.fin (13/2), LenF.inf, LenF.fin (11/2)⟩ := by
    norm_num [advance, LenF.lt, LenF.add]
  have hadv6 : advance 32 32 (LenF.fin 1) (LenF.inf)
      ⟨192, 160, LenF.fin (13/2), LenF.inf, LenF.fin (11/2)⟩
      = ⟨224, 160, LenF.fin (15/2), LenF.inf, LenF.fin (13/2)⟩ := by
    norm_num [advance, LenF.lt, LenF.add]
  have hadv7 : advance 32 32 (LenF.fin 1) (LenF.inf)
      ⟨224, 160, LenF.fin (15/2), LenF.inf, LenF.fin (13/2)⟩
      = ⟨256, 160, LenF.fin (17/2), LenF.inf, LenF.fin (15/2)⟩ := by
    norm_num [advance, LenF.lt, LenF.add]
  have hadv8 : advance 32 32 (LenF.fin 1) (LenF.inf)
      ⟨256, 160, LenF.fin (17/2), LenF.inf, LenF.fin (15/2)⟩
      = ⟨288, 160, LenF.fin (19/2), LenF.inf, LenF.fin (17/2)⟩ := by
    norm_num [advance, LenF.lt, LenF.add]
  have hadv9 : advance 32 32 (LenF.fin 1) (LenF.inf)
      ⟨288, 160, LenF.fin (19/2), LenF.inf, LenF.fin (17/2)⟩
      = ⟨320, 160, LenF.fin (21/2), LenF.inf, LenF.fin (19/2)⟩ := by
    norm_num [advance, LenF.lt, LenF.add]
  have hw0 : wallIndex (mkG 16 176 48 176 [(10, 5)]).board 32 160 = none := by decide
  have hw1 : wallIndex (mkG 16 176 48 176 [(10, 5)]).board 64 160 = none := by decide
  have hw2 : wallIndex (mkG 16 176 48 176 [(10, 5)]).board 96 160 = none := by decide
  have hw3 : wallIndex (mkG 16 176 48 176 [(10, 5)]).board 128 160 = none := by decide
  have hw4 : wallIndex (mkG 16 176 48 176 [(10, 5)]).board 160 160 = none := by decide
  have hw5 : wallIndex (mkG 16 176 48 176 [(10, 5)]).board 192 160 = none := by decide
  have hw6 : wallIndex (mkG 16 176 48 176 [(10, 5)]).board 224 160 = none := by decide
  have hw7 : wallIndex (mkG 16 176 48 176 [(10, 5)]).board 256 160 = none := by decide
  have hw8 : wallIndex (mkG 16 176 48 176 [(10, 5)]).board 288 160 = none := by decide
  have hw9 : wallIndex (mkG 16 176 48 176 [(10, 5)]).board 320 160 = some 160 := by decide
  simp only [ddaLoopRun, c10case_setup, ddaFuel]
  rw [show (1000 : Nat) = 999 + 1 from rfl,
    ddaLoop_continue _ _ _ _ _ _ _ _ (by norm_num [LenF.ltB, max_distance,
      screen_width, screen_height]) (by rw [hadv0]; exact hw0), hadv0]
  rw [show (999 : Nat) = 998 + 1 from rfl,
    ddaLoop_continue _ _ _ _ _ _ _ _ (by norm_num [LenF.ltB, max_distance,
      screen_width, screen_height]) (by rw [hadv1]; exact hw1), hadv1]
  rw [show (998 : Nat) = 997 + 1 from rfl,
    ddaLoop_continue _ _ _ _ _ _ _ _ (by norm_num [LenF.ltB, max_distance,
      screen_width, screen_height]) (by rw [hadv2]; exact hw2), hadv2]
  rw [show (997 : Nat) = 996 + 1 from rfl,
    ddaLoop_continue _ _ _ _ _ _ _ _ (by norm_num [LenF.ltB, max_distance,
      screen_width, screen_height]) (by rw [hadv3]; exact hw3), hadv3]
  rw [show (996 : Nat) = 995 + 1 from rfl,
    ddaLoop_continue _ _ _ _ _ _ _ _ (by norm_num [LenF.ltB, max_distance,
      screen_width, screen_height]) (by rw [hadv4]; exact hw4), hadv4]
  rw [show (995 : Nat) = 994 + 1 from rfl,
    ddaLoop_continue _ _ _ _ _ _ _ _ (by norm_num [LenF.ltB, max_distance,
      screen_width, screen_height]) (by rw [hadv5]; exact hw5), hadv5]
  rw [show (994 : Nat) = 993 + 1 from rfl,
    ddaLoop_continue _ _ _ _ _ _ _ _ (by norm_num [LenF.ltB, max_distance,
      screen_width, screen_height]) (by rw [hadv6]; exact hw6), hadv6]
  rw [show (993 : Nat) = 992 + 1 from rfl,
    ddaLoop_continue _ _ _ _ _ _ _ _ (by norm_num [LenF.ltB, max_distance,
      screen_width, screen_height]) (by rw [hadv7]; exact hw7), hadv7]
  rw [show (992 : Nat) = 991 + 1 from rfl,
    ddaLoop_continue _ _ _ _ _ _ _ _ (by norm_num [LenF.ltB, max_distance,
      screen_width, screen_height]) (by rw [hadv8]; exact hw8), hadv8]
  rw [show (991 : Nat) = 990 + 1 from rfl,
    ddaLoop_found _ _ _ _ _ _ _ _ _ (by norm_num [LenF.ltB, max_distance,
      screen_width, screen_height]) (by rw [hadv9]; exact hw9), hadv9]

end DDADemo
namespace DDADemo

set_option maxRecDepth 100000

/-- C2 (amended): during traversal the wall test is gated only by the
flattened index `y_index * cells_width + x_index` being inside
`[0, board.length)`; every Hit's flat index is in range and names a wall cell,
but nothing constrains the per-axis cell coordinates, so off-board map cells
can alias onto board cells of adjacent rows and produce Hits there. -/
theorem c2_hit_flat_index_in_range (board : List Cell) (S : ℚ)
    (stepx stepy : Int) (ssx ssy : LenF) (n : Nat) (st : TravState) (i : Nat)
    (st' : TravState)
    (h : ddaLoop board S stepx stepy ssx ssy n st = some (some i, st')) :
    (i : Int) = Int.tdiv st'.mapy cell_size * cells_width +
        Int.tdiv st'.mapx cell_size ∧
    i < board.length ∧ (board.getD i cellD).is_wall = true :=
  ddaLoop_found_spec board S stepx stepy ssx ssy n st i st' h

/-- C2 witness: the aliased Hit of the counterexample cast satisfies the
flat-index characterization. -/
theorem c2_hit_flat_index_in_range_witness :
    ((180 : Nat) : Int) = Int.tdiv (160 : Int) cell_size * cells_width +
        Int.tdiv (960 : Int) cell_size ∧
    (180 : Nat) < (mkG 900 176 940 176 [(0, 6)]).board.length ∧
    ((mkG 900 176 940 176 [(0, 6)]).board.getD 180 cellD).is_wall = true := by
  have h := c2_hit_flat_index_in_range (mkG 900 176 940 176 [(0, 6)]).board
    1600 32 32 (LenF.fin (4/5)) LenF.inf 1000
    ⟨896, 160, LenF.fin (7/10), LenF.inf, LenF.fin 0⟩ 180
    ⟨960, 160, LenF.fin (23/10), LenF.inf, LenF.fin (3/2)⟩
    (by have hr := c2run; simp only [ddaLoopRun, c2run_setup, ddaFuel] at hr; exact hr)
  simpa using h

/-- C2 counterexample: the cast from (900,176) toward (940,176), with the
only wall at board cell (0,6), produces a Hit whose map cell `(960,160)` has
x-index 30, outside the board's width of 30 cells: its flat index
`5*30 + 30 = 180` aliases onto board cell (0,6) of the next row. -/
theorem c2_counterexample :
    ddaLoopRun (mkG 900 176 940 176 [(0, 6)]) =
      some (some 180, ⟨960, 160, LenF.fin (23/10), LenF.inf, LenF.fin (3/2)⟩) ∧
    Int.tdiv (960 : Int) cell_size = 30 ∧
    ¬(Int.tdiv (960 : Int) cell_size < cells_width) ∧
    (180 : Int) = 6 * cells_width + 0 :=
  ⟨c2run, by decide, by decide, by decide⟩

/-- C10: the ray is not clipped at the target point.  Cast origin `(16,176)`,
target `(48,176)` (origin-to-target distance 32), wall at cell (10,5): the
cast Hits that wall at reported distance `(19/2)*sqrt 1024 = 304 > 32`. -/
theorem c10_not_clipped_at_target :
    ddaLoopRun (mkG 16 176 48 176 [(10, 5)]) =
      some (some 160, ⟨320, 160, LenF.fin (21/2), LenF.inf, LenF.fin (19/2)⟩) ∧
    (ddaSetup (mkG 16 176 48 176 [(10, 5)])).S = 1024 ∧
    (((19 : ℚ)/2 : ℚ) : ℝ) * Real.sqrt (((1024 : ℚ) : ℝ)) = 304 ∧
    Real.sqrt (((mouseCenterX (mkG 16 176 48 176 [(10, 5)]) -
          playerCenterX (mkG 16 176 48 176 [(10, 5)]) : Int) : ℝ) ^ 2 +
        ((mouseCenterY (mkG 16 176 48 176 [(10, 5)]) -
          playerCenterY (mkG 16 176 48 176 [(10, 5)]) : Int) : ℝ) ^ 2) = 32 ∧
    (304 : ℝ) > 32 := by
  refine ⟨c10case_run, by rw [c10case_setup], ?_, ?_, by norm_num⟩
  · rw [show ((1024 : ℚ) : ℝ) = (32 : ℝ) ^ 2 by norm_num, Real.sqrt_sq (by norm_num)]
    norm_num
  · have h1 : mouseCenterX (mkG 16 176 48 176 [(10, 5)]) -
        playerCenterX (mkG 16 176 48 176 [(10, 5)]) = 32 := by decide
    have h2 : mouseCenterY (mkG 16 176 48 176 [(10, 5)]) -
        playerCenterY (mkG 16 176 48 176 [(10, 5)]) = 0 := by decide
    rw [h1, h2]
    rw [show ((32 : Int) : ℝ) ^ 2 + ((0 : Int) : ℝ) ^ 2 = (32 : ℝ) ^ 2 by norm_num,
      Real.sqrt_sq (by norm_num)]

end DDADemo
namespace DDADemo

set_option maxRecDepth 100000

theorem getD_map_is_wall (l : List Cell) (n : Nat) :
    (l.map Cell.is_wall).getD n cellD.is_wall = (l.getD n cellD).is_wall := by
  simp only [List.getD_eq_getElem?_getD, List.getElem?_map]
  cases l[n]? <;> simp

theorem getD_set_self (l : List Cell) (i : Nat) (a : Cell) (h : i < l.length) :
    (l.set i a).getD i cellD = a := by
  simp [List.getD_eq_getElem?_getD, List.getElem?_set_self',
    List.getElem?_eq_getElem h]

theorem getD_set_ne (l : List Cell) (i j : Nat) (a : Cell) (h : i ≠ j) :
    (l.set i a).getD j cellD = l.getD j cellD := by
  simp [List.getD_eq_getElem?_getD, List.getElem?_set_ne h]

/-- C6: frame effect of a cast on the Grid Model.  On a Miss (or an aborted
cast) the board is unmodified.  On a Hit at flat index `i`, the new board is
the old board with exactly cell `i` replaced by the same cell with
`highlighted_` set: every other cell is unchanged, and the struck cell keeps
its wall flag and rectangle.  The player and mouse boxes are never touched. -/
theorem c6_frame_effect (g : GameState) :
    (ddaFoundIdx g = none → (dda g).board = g.board) ∧
    (∀ i, ddaFoundIdx g = some i →
      i < g.board.length ∧
      (dda g).board = g.board.set i { g.board.getD i cellD with highlighted := true } ∧
      (∀ j, j ≠ i → (dda g).board.getD j cellD = g.board.getD j cellD) ∧
      ((dda g).board.getD i cellD).is_wall = (g.board.getD i cellD).is_wall ∧
      ((dda g).board.getD i cellD).rect = (g.board.getD i cellD).rect ∧
      ((dda g).board.getD i cellD).highlighted = true) ∧
    (dda g).player = g.player ∧ (dda g).mouse_box = g.mouse_box := by
  cases habort : aborts g with
  | true =>
    refine ⟨fun _ => by simp [dda, habort], fun i hi => ?_, by simp [dda, habort],
      by simp [dda, habort]⟩
    simp [ddaFoundIdx, habort] at hi
  | false =>
    have hplayer : (dda g).player = g.player := by
      simp only [dda, habort, Bool.false_eq_true, if_false]
      rcases hrun : ddaLoopRun g with _ | ⟨_ | i, st⟩ <;> simp
    have hmouse : (dda g).mouse_box = g.mouse_box := by
      simp only [dda, habort, Bool.false_eq_true, if_false]
      rcases hrun : ddaLoopRun g with _ | ⟨_ | i, st⟩ <;> simp
    refine ⟨fun hnone => ?_, fun i hi => ?_, hplayer, hmouse⟩
    · simp only [ddaFoundIdx, habort, Bool.false_eq_true, if_false] at hnone
      simp only [dda, habort, Bool.false_eq_true, if_false]
      rcases hrun : ddaLoopRun g with _ | ⟨_ | i, st⟩ <;> simp_all
    · simp only [ddaFoundIdx, habort, Bool.false_eq_true, if_false] at hi
      rcases hrun : ddaLoopRun g with _ | ⟨fo, st⟩
      · rw [hrun] at hi
        exact absurd hi (by simp)
      · rw [hrun] at hi
        cases fo with
        | none => exact absurd hi (by simp)
        | some j =>
          have hij : j = i := by simpa using hi
          subst hij
          obtain ⟨-, hlen, -⟩ := ddaLoop_found_spec _ _ _ _ _ _ _ _ _ _
            (by simpa only [ddaLoopRun] using hrun)
          have hboard : (dda g).board =
              g.board.set j { g.board.getD j cellD with highlighted := true } := by
            simp [dda, habort, hrun]
          refine ⟨hlen, hboard, fun k hk => ?_, ?_, ?_, ?_⟩
          · rw [hboard, getD_set_ne _ _ _ _ (Ne.symm hk)]
          · rw [hboard, getD_set_self _ _ _ hlen]
          · rw [hboard, getD_set_self _ _ _ hlen]
          · rw [hboard, getD_set_self _ _ _ hlen]

/-- C6 witness: in the concrete scenario cast, the struck cell 160 = (10,5)
is highlighted and the rest of the board is untouched. -/
theorem c6_frame_effect_witness :
    (dda (mkG 0 176 640 176 [(10, 5)])).board =
      (mkG 0 176 640 176 [(10, 5)]).board.set 160
        { (mkG 0 176 640 176 [(10, 5)]).board.getD 160 cellD with highlighted := true } ∧
    ((dda (mkG 0 176 640 176 [(10, 5)])).board.getD 160 cellD).is_wall =
      ((mkG 0 176 640 176 [(10, 5)]).board.getD 160 cellD).is_wall ∧
    ((dda (mkG 0 176 640 176 [(10, 5)])).board.getD 160 cellD).highlighted = true := by
  have hfound : ddaFoundIdx (mkG 0 176 640 176 [(10, 5)]) = some 160 := by
    rw [ddaFoundIdx, scenario_run]
    simp [show aborts (mkG 0 176 640 176 [(10, 5)]) = false from by decide]
  have h := (c6_frame_effect (mkG 0 176 640 176 [(10, 5)])).2.1 160 hfound
  exact ⟨h.2.1, h.2.2.2.1, h.2.2.2.2.2⟩

end DDADemo
namespace DDADemo

set_option maxRecDepth 100000

theorem wallIndex_congr (b b' : List Cell)
    (hw : b'.map Cell.is_wall = b.map Cell.is_wall) (mcx mcy : Int) :
    wallIndex b' mcx mcy = wallIndex b mcx mcy := by
  have hlen : b'.length = b.length := by
    have := congrArg List.length hw
    simpa using this
  have hgd : ∀ n, (b'.getD n cellD).is_wall = (b.getD n cellD).is_wall := by
    intro n
    have h1 := getD_map_is_wall b' n
    have h2 := getD_map_is_wall b n
    rw [hw] at h1
    rw [← h1, h2]
  simp only [wallIndex, hlen]
  split
  · rw [hgd]
  · rfl

theorem ddaLoop_congr (b b' : List Cell)
    (hw : b'.map Cell.is_wall = b.map Cell.is_wall) (S : ℚ)
    (stepx stepy : Int) (ssx ssy : LenF) :
    ∀ (n : Nat) (st : TravState),
      ddaLoop b' S stepx stepy ssx ssy n st =
        ddaLoop b S stepx stepy ssx ssy n st := by
  intro n
  induction n with
  | zero => intro st; rfl
  | succ n ih =>
    intro st
    simp only [ddaLoop, wallIndex_congr b b' hw]
    split
    · split
      · rfl
      · exact ih _
    · rfl

theorem playerCenterX_congr (g g' : GameState) (hp : g'.player = g.player) :
    playerCenterX g' = playerCenterX g := by
  simp [playerCenterX, hp]

theorem playerCenterY_congr (g g' : GameState) (hp : g'.player = g.player) :
    playerCenterY g' = playerCenterY g := by
  simp [playerCenterY, hp]

theorem mouseCenterX_congr (g g' : GameState) (hm : g'.mouse_box = g.mouse_box) :
    mouseCenterX g' = mouseCenterX g := by
  simp [mouseCenterX, hm]

theorem mouseCenterY_congr (g g' : GameState) (hm : g'.mouse_box = g.mouse_box) :
    mouseCenterY g' = mouseCenterY g := by
  simp [mouseCenterY, hm]

theorem ddaSetup_congr (g g' : GameState) (hp : g'.player = g.player)
    (hm : g'.mouse_box = g.mouse_box) : ddaSetup g' = ddaSetup g := by
  unfold ddaSetup
  rw [playerCenterX_congr g g' hp, playerCenterY_congr g g' hp,
    mouseCenterX_congr g g' hm, mouseCenterY_congr g g' hm]

theorem aborts_congr (g g' : GameState) (hp : g'.player = g.player)
    (hm : g'.mouse_box = g.mouse_box) : aborts g' = aborts g := by
  unfold aborts
  rw [playerCenterX_congr g g' hp, playerCenterY_congr g g' hp,
    mouseCenterX_congr g g' hm, mouseCenterY_congr g g' hm]

theorem ddaLoopRun_congr (g g' : GameState) (hp : g'.player = g.player)
    (hm : g'.mouse_box = g.mouse_box)
    (hw : g'.board.map Cell.is_wall = g.board.map Cell.is_wall) :
    ddaLoopRun g' = ddaLoopRun g := by
  simp only [ddaLoopRun, ddaSetup_congr g g' hp hm,
    ddaLoop_congr g.board g'.board hw]

/-- C9: the cast is a deterministic function of the origin, the target, and
the wall layout: two states with the same player box, mouse box, and wall
flags (highlight flags and the stored intersection may differ) produce the
same traversal outcome — same found cell, same recorded distance — and, for a
non-aborted cast, the same reported intersection point. -/
theorem c9_deterministic (g g' : GameState) (hp : g'.player = g.player)
    (hm : g'.mouse_box = g.mouse_box)
    (hw : g'.board.map Cell.is_wall = g.board.map Cell.is_wall) :
    ddaFoundIdx g' = ddaFoundIdx g ∧ ddaDist g' = ddaDist g ∧
    (aborts g = false →
      (dda g').dda_intersection = (dda g).dda_intersection) := by
  have hrun := ddaLoopRun_congr g g' hp hm hw
  have habort := aborts_congr g g' hp hm
  refine ⟨by simp only [ddaFoundIdx, hrun, habort],
    by simp only [ddaDist, hrun, habort], fun hab => ?_⟩
  simp only [dda, habort, hab, Bool.false_eq_true, if_false, hrun,
    ddaSetup_congr g g' hp hm]
  rcases ddaLoopRun g with _ | ⟨_ | i, st⟩ <;> simp

/-- C9 witness: the scenario cast run from a state that differs only in one
highlight flag yields the same found cell, distance, and intersection. -/
theorem c9_deterministic_witness :
    ddaFoundIdx { mkG 0 176 640 176 [(10, 5)] with
        board := (mkG 0 176 640 176 [(10, 5)]).board.set 3
          { (mkG 0 176 640 176 [(10, 5)]).board.getD 3 cellD with highlighted := true } }
      = ddaFoundIdx (mkG 0 176 640 176 [(10, 5)]) ∧
    (dda { mkG 0 176 640 176 [(10, 5)] with
        board := (mkG 0 176 640 176 [(10, 5)]).board.set 3
          { (mkG 0 176 640 176 [(10, 5)]).board.getD 3 cellD with highlighted := true } }).dda_intersection
      = (dda (mkG 0 176 640 176 [(10, 5)])).dda_intersection := by
  have h := c9_deterministic (mkG 0 176 640 176 [(10, 5)])
    { mkG 0 176 640 176 [(10, 5)] with
        board := (mkG 0 176 640 176 [(10, 5)]).board.set 3
          { (mkG 0 176 640 176 [(10, 5)]).board.getD 3 cellD with highlighted := true } }
    rfl rfl (by decide)
  exact ⟨h.1, h.2.2 (by decide)⟩

end DDADemo
namespace DDADemo

set_option maxRecDepth 100000

theorem ddaSetup_dx (g : GameState) :
    (ddaSetup g).dx = ((mouseCenterX g - playerCenterX g : Int) : ℚ) := rfl

theorem ddaSetup_dy (g : GameState) :
    (ddaSetup g).dy = ((mouseCenterY g - playerCenterY g : Int) : ℚ) := rfl

theorem ddaSetup_ox (g : GameState) :
    (ddaSetup g).ox = ((playerCenterX g : Int) : ℚ) := rfl

theorem ddaSetup_oy (g : GameState) :
    (ddaSetup g).oy = ((playerCenterY g : Int) : ℚ) := rfl

theorem ddaSetup_S (g : GameState) :
    (ddaSetup g).S = (ddaSetup g).dx ^ 2 + (ddaSetup g).dy ^ 2 := rfl

theorem ddaSetup_ux (g : GameState) :
    (ddaSetup g).ux = (ddaSetup g).dx / (ddaSetup g).S := rfl

theorem ddaSetup_uy (g : GameState) :
    (ddaSetup g).uy = (ddaSetup g).dy / (ddaSetup g).S := rfl

theorem ddaSetup_ssx (g : GameState) :
    (ddaSetup g).ssx =
      (sqrtOnePlusRatioSq ((cell_size : ℚ) * (ddaSetup g).dx / (ddaSetup g).S)
        (ddaSetup g).S).scale (cell_size : ℚ) := rfl

theorem ddaSetup_ssy (g : GameState) :
    (ddaSetup g).ssy =
      (sqrtOnePlusRatioSq ((cell_size : ℚ) * (ddaSetup g).dy / (ddaSetup g).S)
        (ddaSetup g).S).scale (cell_size : ℚ) := rfl

theorem ddaSetup_stepx (g : GameState) :
    (ddaSetup g).stepx =
      if (cell_size : ℚ) * (ddaSetup g).dx / (ddaSetup g).S < 0 then -cell_size
      else cell_size := rfl

theorem ddaSetup_stepy (g : GameState) :
    (ddaSetup g).stepy =
      if (cell_size : ℚ) * (ddaSetup g).dy / (ddaSetup g).S < 0 then -cell_size
      else cell_size := rfl

theorem setup_S_pos (g : GameState) (h : (ddaSetup g).dx ≠ 0 ∨ (ddaSetup g).dy ≠ 0) :
    0 < (ddaSetup g).S := by
  rw [ddaSetup_S]
  rcases h with h | h
  · have h1 : 0 < (ddaSetup g).dx ^ 2 := by
      simpa [sq_abs] using pow_pos (abs_pos.mpr h) 2
    nlinarith [sq_nonneg (ddaSetup g).dy]
  · have h1 : 0 < (ddaSetup g).dy ^ 2 := by
      simpa [sq_abs] using pow_pos (abs_pos.mpr h) 2
    nlinarith [sq_nonneg (ddaSetup g).dx]

theorem cell_size_cast : ((cell_size : Int) : ℚ) = 32 := by
  norm_num [cell_size]

theorem scaled_dir_neg_iff (d S : ℚ) (hS : 0 < S) :
    ((cell_size : ℚ) * d / S < 0 ↔ d < 0) := by
  rw [cell_size_cast]
  constructor
  · intro h
    by_contra hd
    push_neg at hd
    have h0 : (0 : ℚ) ≤ 32 * d / S := by positivity
    linarith
  · intro h
    apply div_neg_of_neg_of_pos _ hS
    nlinarith

theorem scaled_dir_eq_zero_iff (d S : ℚ) (hS : 0 < S) :
    ((cell_size : ℚ) * d / S = 0 ↔ d = 0) := by
  rw [cell_size_cast]
  constructor
  · intro h
    have := div_eq_zero_iff.mp h
    rcases this with h' | h'
    · rcases mul_eq_zero.mp h' with h'' | h''
      · norm_num at h''
      · exact h''
    · exact absurd h' hS.ne'
  · intro h
    simp [h]

theorem stepSize_coeff (g : GameState) (d : ℚ) (hd : d ≠ 0)
    (hS : 0 < (ddaSetup g).S) :
    (sqrtOnePlusRatioSq ((cell_size : ℚ) * d / (ddaSetup g).S)
        (ddaSetup g).S).scale (cell_size : ℚ) =
      LenF.fin ((cell_size : ℚ) / |d|) := by
  have hne : (cell_size : ℚ) * d / (ddaSetup g).S ≠ 0 := by
    rw [Ne, scaled_dir_eq_zero_iff d _ hS]
    exact hd
  rw [sqrtOnePlusRatioSq, if_neg hne, LenF.scale]
  congr 1
  have habs : |(cell_size : ℚ) * d / (ddaSetup g).S| =
      (cell_size : ℚ) * |d| / (ddaSetup g).S := by
    rw [abs_div, abs_mul, abs_of_pos hS, cell_size]
    norm_num
  rw [habs, cell_size_cast]
  have habsd : |d| ≠ 0 := abs_ne_zero.mpr hd
  field_simp
  ring

/-- C8: for a cast whose direction has both components nonzero, the per-axis
step lengths are `stepSize.x = cell_size * sqrt(1 + (dy/dx)^2)` and
`stepSize.y = cell_size * sqrt(1 + (dx/dy)^2)` (the model stores the
coefficient of `sqrt S`; its real value is exactly that expression), and the
per-axis traversal step is `-cell_size` when that direction component is
negative and `+cell_size` otherwise. -/
theorem c8_step_size_and_sign (g : GameState)
    (hdx : (ddaSetup g).dx ≠ 0) (hdy : (ddaSetup g).dy ≠ 0) :
    (∃ qx, (ddaSetup g).ssx = LenF.fin qx ∧ 0 ≤ qx ∧
      (qx : ℝ) * Real.sqrt ((ddaSetup g).S : ℝ) =
        (cell_size : ℝ) *
          Real.sqrt (1 + (((ddaSetup g).dy : ℝ) / ((ddaSetup g).dx : ℝ)) ^ 2)) ∧
    (∃ qy, (ddaSetup g).ssy = LenF.fin qy ∧ 0 ≤ qy ∧
      (qy : ℝ) * Real.sqrt ((ddaSetup g).S : ℝ) =
        (cell_size : ℝ) *
          Real.sqrt (1 + (((ddaSetup g).dx : ℝ) / ((ddaSetup g).dy : ℝ)) ^ 2)) ∧
    ((ddaSetup g).stepx = if (ddaSetup g).dx < 0 then -cell_size else cell_size) ∧
    ((ddaSetup g).stepy = if (ddaSetup g).dy < 0 then -cell_size else cell_size) := by
  have hS : 0 < (ddaSetup g).S := setup_S_pos g (Or.inl hdx)
  have key : ∀ a b : ℚ, a ≠ 0 → (ddaSetup g).S = a ^ 2 + b ^ 2 →
      ((((cell_size : ℚ) / |a| : ℚ)) : ℝ) * Real.sqrt ((ddaSetup g).S : ℝ) =
        (cell_size : ℝ) * Real.sqrt (1 + ((b : ℝ) / (a : ℝ)) ^ 2) := by
    intro a b ha hab
    have haR : (a : ℝ) ≠ 0 := by exact_mod_cast ha
    have h1 : 1 + ((b : ℝ) / (a : ℝ)) ^ 2 = ((ddaSetup g).S : ℝ) / (a : ℝ) ^ 2 := by
      rw [show ((ddaSetup g).S : ℝ) = ((a : ℝ) ^ 2 + (b : ℝ) ^ 2) by
        exact_mod_cast congrArg (Rat.cast : ℚ → ℝ) hab]
      field_simp
    have hSR : (0 : ℝ) ≤ ((ddaSetup g).S : ℝ) := by positivity
    rw [h1, Real.sqrt_div hSR, Real.sqrt_sq_eq_abs]
    have hc : ((((cell_size : ℚ) / |a| : ℚ)) : ℝ) = (cell_size : ℝ) / |(a : ℝ)| := by
      push_cast
      ring
    rw [hc]
    have habsne : |(a : ℝ)| ≠ 0 := abs_ne_zero.mpr haR
    field_simp
  have hq0 : ∀ a : ℚ, (0 : ℚ) ≤ (cell_size : ℚ) / |a| := by
    intro a
    rw [cell_size_cast]
    positivity
  refine ⟨⟨(cell_size : ℚ) / |(ddaSetup g).dx|, ?_, hq0 _, ?_⟩,
    ⟨(cell_size : ℚ) / |(ddaSetup g).dy|, ?_, hq0 _, ?_⟩, ?_, ?_⟩
  · rw [ddaSetup_ssx]
    exact stepSize_coeff g _ hdx hS
  · exact key _ _ hdx (ddaSetup_S g)
  · rw [ddaSetup_ssy]
    exact stepSize_coeff g _ hdy hS
  · exact key _ _ hdy (by rw [ddaSetup_S]; ring)
  · rw [ddaSetup_stepx]
    by_cases h : (ddaSetup g).dx < 0
    · rw [if_pos ((scaled_dir_neg_iff _ _ hS).mpr h), if_pos h]
    · rw [if_neg (fun hc => h ((scaled_dir_neg_iff _ _ hS).mp hc)), if_neg h]
  · rw [ddaSetup_stepy]
    by_cases h : (ddaSetup g).dy < 0
    · rw [if_pos ((scaled_dir_neg_iff _ _ hS).mpr h), if_pos h]
    · rw [if_neg (fun hc => h ((scaled_dir_neg_iff _ _ hS).mp hc)), if_neg h]

end DDADemo

namespace DDADemo

theorem c8_witness_dx : (ddaSetup (mkG 16 16 19 20 [])).dx ≠ 0 := by
  rw [ddaSetup_dx]
  rw [show mouseCenterX (mkG 16 16 19 20 []) - playerCenterX (mkG 16 16 19 20 []) = 3
    from by decide]
  norm_num

theorem c8_witness_dy : (ddaSetup (mkG 16 16 19 20 [])).dy ≠ 0 := by
  rw [ddaSetup_dy]
  rw [show mouseCenterY (mkG 16 16 19 20 []) - playerCenterY (mkG 16 16 19 20 []) = 4
    from by decide]
  norm_num

/-- C8 witness: the characterization applied to the concrete cast with
direction (3, 4). -/
theorem c8_step_size_and_sign_witness :
    (∃ qx, (ddaSetup (mkG 16 16 19 20 [])).ssx = LenF.fin qx ∧ 0 ≤ qx ∧
      (qx : ℝ) * Real.sqrt ((ddaSetup (mkG 16 16 19 20 [])).S : ℝ) =
        (cell_size : ℝ) *
          Real.sqrt (1 + (((ddaSetup (mkG 16 16 19 20 [])).dy : ℝ) /
            ((ddaSetup (mkG 16 16 19 20 [])).dx : ℝ)) ^ 2)) ∧
    (∃ qy, (ddaSetup (mkG 16 16 19 20 [])).ssy = LenF.fin qy ∧ 0 ≤ qy ∧
      (qy : ℝ) * Real.sqrt ((ddaSetup (mkG 16 16 19 20 [])).S : ℝ) =
        (cell_size : ℝ) *
          Real.sqrt (1 + (((ddaSetup (mkG 16 16 19 20 [])).dx : ℝ) /
            ((ddaSetup (mkG 16 16 19 20 [])).dy : ℝ)) ^ 2)) ∧
    ((ddaSetup (mkG 16 16 19 20 [])).stepx =
      if (ddaSetup (mkG 16 16 19 20 [])).dx < 0 then -cell_size else cell_size) ∧
    ((ddaSetup (mkG 16 16 19 20 [])).stepy =
      if (ddaSetup (mkG 16 16 19 20 [])).dy < 0 then -cell_size else cell_size) :=
  c8_step_size_and_sign (mkG 16 16 19 20 []) c8_witness_dx c8_witness_dy

end DDADemo
namespace DDADemo

set_option maxRecDepth 100000

theorem max_distance_val : max_distance = 9600 := by
  norm_num [max_distance, screen_width, screen_height]

theorem max_distance_pos : 0 < max_distance := by
  rw [max_distance_val]
  norm_num

theorem ltB_false_of_big (S M q : ℚ) (hM : 0 < M) (hS : M ^ 2 ≤ S) (hq0 : 0 ≤ q)
    (hq : max_distance / M ≤ q) :
    LenF.ltB S (LenF.fin q) max_distance = false := by
  rw [LenF.ltB]
  simp only [Bool.or_eq_false_iff, decide_eq_false_iff_not, not_lt]
  refine ⟨hq0, ?_⟩
  have h1 : max_distance ≤ q * M := by
    rw [div_le_iff hM] at hq
    linarith
  have h2 : max_distance ^ 2 ≤ (q * M) ^ 2 := by
    have := max_distance_pos
    nlinarith
  have h3 : (q * M) ^ 2 ≤ q ^ 2 * S := by
    have hq2 : 0 ≤ q ^ 2 := sq_nonneg q
    nlinarith
  linarith

theorem stepsLeft_decrement (M s q : ℚ) (hs : 0 < s)
    (hqB : q < max_distance / M) :
    (⌈(max_distance / M - (q + s)) / s⌉).toNat + 1 + 1 =
      (⌈(max_distance / M - q) / s⌉).toNat + 1 := by
  have h1 : (max_distance / M - (q + s)) / s = (max_distance / M - q) / s - 1 := by
    rw [show max_distance / M - (q + s) = (max_distance / M - q) - s by ring,
      sub_div, div_self hs.ne']
  rw [h1, Int.ceil_sub_one]
  have h2 : (1 : ℤ) ≤ ⌈(max_distance / M - q) / s⌉ := by
    have hpos : 0 < (max_distance / M - q) / s := by
      apply div_pos _ hs
      linarith
    exact Int.one_le_ceil_iff.mpr hpos
  omega

theorem LenF.exists_fin_of_ne_inf (l : LenF) (h : l ≠ LenF.inf) :
    ∃ q, l = LenF.fin q := by
  cases l
  · exact ⟨_, rfl⟩
  · exact absurd rfl h

theorem ddaLoop_total (board : List Cell) (S : ℚ) (stepx stepy : Int)
    (ssx ssy : LenF) (M : ℚ) (hM : 0 < M) (hS : M ^ 2 ≤ S)
    (hsx : ∀ s, ssx = LenF.fin s → 32 / M ≤ s)
    (hsy : ∀ s, ssy = LenF.fin s → 32 / M ≤ s) :
    ∀ (n : Nat) (st : TravState),
      (st.rlx = LenF.inf ∨ ∃ q, st.rlx = LenF.fin q ∧ 0 ≤ q ∧ ssx ≠ LenF.inf) →
      (st.rly = LenF.inf ∨ ∃ q, st.rly = LenF.fin q ∧ 0 ≤ q ∧ ssy ≠ LenF.inf) →
      stepsLeft M ssx st.rlx + stepsLeft M ssy st.rly + 2 ≤ n →
      (ddaLoop board S stepx stepy ssx ssy n st).isSome = true := by
  intro n
  induction n using Nat.strong_induction_on with
  | _ n ih =>
    intro st hx hy hfuel
    rcases n with _ | m
    · omega
    · simp only [ddaLoop]
      by_cases hcheck : st.dist.ltB S max_distance = true
      · simp only [hcheck, if_true]
        rcases hw : wallIndex board (advance stepx stepy ssx ssy st).mapx
            (advance stepx stepy ssx ssy st).mapy with _ | i
        · simp only [hw]
          by_cases hlt : st.rlx.lt st.rly = true
          · -- x axis advanced
            rcases hx with hinf | ⟨q, hq, hq0, hssx⟩
            · rw [hinf] at hlt
              simp [LenF.lt] at hlt
            · obtain ⟨s, hssx2⟩ := LenF.exists_fin_of_ne_inf ssx hssx
              · have hsbound := hsx s hssx2
                have hspos : 0 < s :=
                  lt_of_lt_of_le (by positivity : (0 : ℚ) < 32 / M) hsbound
                have hadv : advance stepx stepy ssx ssy st =
                    { st with mapx := st.mapx + stepx, rlx := st.rlx.add ssx, dist := st.rlx } := by
                  simp [advance, hlt]
                by_cases hbig : max_distance / M ≤ q
                · rcases m with _ | k
                  · simp [stepsLeft] at hfuel
                  · have hstop : (advance stepx stepy ssx ssy st).dist.ltB S
                        max_distance = false := by
                      rw [hadv]
                      simp only [hq]
                      exact ltB_false_of_big S M q hM hS hq0 hbig
                    rw [ddaLoop_stop _ _ _ _ _ _ k _ hstop]
                    simp
                · push_neg at hbig
                  apply ih m (by omega)
                  · refine Or.inr ⟨q + s, ?_, by linarith, hssx⟩
                    rw [hadv]
                    simp only [hq, hssx2, LenF.add]
                  · rw [hadv]
                    exact hy
                  · rw [hadv]
                    simp only [hq, hssx2, LenF.add]
                    have hdec := stepsLeft_decrement M s q hspos hbig
                    simp only [stepsLeft, hq, hssx2] at hfuel ⊢
                    omega
          · -- y axis advanced
            have hlt' : st.rlx.lt st.rly = false := by
              simpa using hlt
            have hadv : advance stepx stepy ssx ssy st =
                { st with mapy := st.mapy + stepy, rly := st.rly.add ssy, dist := st.rly } := by
              simp [advance, hlt']
            rcases hy with hinf | ⟨q, hq, hq0, hssy⟩
            · rcases m with _ | k
              · simp [stepsLeft] at hfuel
              · have hstop : (advance stepx stepy ssx ssy st).dist.ltB S
                    max_distance = false := by
                  rw [hadv]
                  simp only [hinf, LenF.ltB]
                rw [ddaLoop_stop _ _ _ _ _ _ k _ hstop]
                simp
            · obtain ⟨s, hssy2⟩ := LenF.exists_fin_of_ne_inf ssy hssy
              · have hsbound := hsy s hssy2
                have hspos : 0 < s :=
                  lt_of_lt_of_le (by positivity : (0 : ℚ) < 32 / M) hsbound
                by_cases hbig : max_distance / M ≤ q
                · rcases m with _ | k
                  · simp [stepsLeft] at hfuel
                  · have hstop : (advance stepx stepy ssx ssy st).dist.ltB S
                        max_distance = false := by
                      rw [hadv]
                      simp only [hq]
                      exact ltB_false_of_big S M q hM hS hq0 hbig
                    rw [ddaLoop_stop _ _ _ _ _ _ k _ hstop]
                    simp
                · push_neg at hbig
                  apply ih m (by omega)
                  · rw [hadv]
                    exact hx
                  · refine Or.inr ⟨q + s, ?_, by linarith, hssy⟩
                    rw [hadv]
                    simp only [hq, hssy2, LenF.add]
                  · rw [hadv]
                    simp only [hq, hssy2, LenF.add]
                    have hdec := stepsLeft_decrement M s q hspos hbig
                    simp only [stepsLeft, hq, hssy2] at hfuel ⊢
                    omega
        · simp only [hw]
          simp
      · have hcheck' : st.dist.ltB S max_distance = false := by
          simpa using hcheck
        simp [hcheck']

end DDADemo
namespace DDADemo

set_option maxRecDepth 100000

theorem ddaSetup_st0_dist (g : GameState) :
    (ddaSetup g).st0.dist = LenF.fin 0 := rfl

theorem ddaSetup_st0_rlx (g : GameState) :
    (ddaSetup g).st0.rlx =
      (if (cell_size : ℚ) * (ddaSetup g).dx / (ddaSetup g).S < 0 then
        (if Int.tmod (ratTrunc (ddaSetup g).ox) cell_size = 0 then (ddaSetup g).ssx
         else (ddaSetup g).ssx.scale (((ddaSetup g).ox -
           ((ratTrunc (ddaSetup g).ox -
             Int.tmod (ratTrunc (ddaSetup g).ox) cell_size : Int) : ℚ)) /
             (cell_size : ℚ)))
       else (ddaSetup g).ssx.scale
         ((((ratTrunc (ddaSetup g).ox -
             Int.tmod (ratTrunc (ddaSetup g).ox) cell_size + cell_size : Int) : ℚ) -
             (ddaSetup g).ox) / (cell_size : ℚ))) := rfl

theorem ddaSetup_st0_rly (g : GameState) :
    (ddaSetup g).st0.rly =
      (if (cell_size : ℚ) * (ddaSetup g).dy / (ddaSetup g).S < 0 then
        (if Int.tmod (ratTrunc (ddaSetup g).oy) cell_size = 0 then (ddaSetup g).ssy
         else (ddaSetup g).ssy.scale (((ddaSetup g).oy -
           ((ratTrunc (ddaSetup g).oy -
             Int.tmod (ratTrunc (ddaSetup g).oy) cell_size : Int) : ℚ)) /
             (cell_size : ℚ)))
       else (ddaSetup g).ssy.scale
         ((((ratTrunc (ddaSetup g).oy -
             Int.tmod (ratTrunc (ddaSetup g).oy) cell_size + cell_size : Int) : ℚ) -
             (ddaSetup g).oy) / (cell_size : ℚ))) := rfl

theorem setup_S_nonneg (g : GameState) : 0 ≤ (ddaSetup g).S := by
  rw [ddaSetup_S]
  positivity

theorem setup_ssx_spec (g : GameState) :
    (ddaSetup g).ssx = LenF.inf ∨
      ((ddaSetup g).ssx = LenF.fin ((cell_size : ℚ) / |(ddaSetup g).dx|) ∧
        (ddaSetup g).dx ≠ 0 ∧ 0 < (ddaSetup g).S) := by
  by_cases hdx : (ddaSetup g).dx = 0
  · left
    rw [ddaSetup_ssx, hdx]
    simp [sqrtOnePlusRatioSq, LenF.scale]
  · have hS : 0 < (ddaSetup g).S := setup_S_pos g (Or.inl hdx)
    right
    exact ⟨by rw [ddaSetup_ssx]; exact stepSize_coeff g _ hdx hS, hdx, hS⟩

theorem setup_ssy_spec (g : GameState) :
    (ddaSetup g).ssy = LenF.inf ∨
      ((ddaSetup g).ssy = LenF.fin ((cell_size : ℚ) / |(ddaSetup g).dy|) ∧
        (ddaSetup g).dy ≠ 0 ∧ 0 < (ddaSetup g).S) := by
  by_cases hdy : (ddaSetup g).dy = 0
  · left
    rw [ddaSetup_ssy, hdy]
    simp [sqrtOnePlusRatioSq, LenF.scale]
  · have hS : 0 < (ddaSetup g).S := setup_S_pos g (Or.inr hdy)
    right
    exact ⟨by rw [ddaSetup_ssy]; exact stepSize_coeff g _ hdy hS, hdy, hS⟩

theorem guard_center_bounds (g : GameState) (h : aborts g = false) :
    0 ≤ playerCenterX g ∧ playerCenterX g ≤ screen_width ∧
    0 ≤ playerCenterY g ∧ playerCenterY g ≤ screen_height ∧
    0 ≤ mouseCenterX g ∧ mouseCenterX g ≤ screen_width ∧
    0 ≤ mouseCenterY g ∧ mouseCenterY g ≤ screen_height := by
  unfold aborts at h
  simp only [Bool.or_eq_false_iff, decide_eq_false_iff_not, not_lt] at h
  obtain ⟨⟨⟨⟨⟨⟨⟨h1, h2⟩, h3⟩, h4⟩, h5⟩, h6⟩, h7⟩, h8⟩ := h
  exact ⟨h1, h2, h3, h4, h5, h6, h7, h8⟩

theorem init_rl_nonneg (t : Int) (ht : 0 ≤ t) (c : ℚ) (hc : c = (t : ℚ)) :
    (0 : ℚ) ≤ (c - ((t - Int.tmod t cell_size : Int) : ℚ)) / (cell_size : ℚ) ∧
    (0 : ℚ) ≤ (((t - Int.tmod t cell_size + cell_size : Int) : ℚ) - c) /
      (cell_size : ℚ) := by
  have hm0 : 0 ≤ Int.tmod t cell_size := Int.tmod_nonneg cell_size ht
  have hmlt : Int.tmod t cell_size < cell_size :=
    Int.tmod_lt_of_pos t (by norm_num [cell_size])
  subst hc
  constructor
  · apply div_nonneg _ (by norm_num [cell_size_cast, cell_size])
    push_cast
    have : ((Int.tmod t cell_size : Int) : ℚ) ≥ 0 := by exact_mod_cast hm0
    linarith
  · apply div_nonneg _ (by norm_num [cell_size_cast, cell_size])
    push_cast
    have : ((Int.tmod t cell_size : Int) : ℚ) < ((cell_size : Int) : ℚ) := by
      exact_mod_cast hmlt
    linarith

theorem setup_rlx_inv (g : GameState) (h : aborts g = false) :
    (ddaSetup g).st0.rlx = LenF.inf ∨
      ∃ q, (ddaSetup g).st0.rlx = LenF.fin q ∧ 0 ≤ q ∧
        (ddaSetup g).ssx ≠ LenF.inf := by
  have hox : (ddaSetup g).ox = ((playerCenterX g : Int) : ℚ) := ddaSetup_ox g
  have ht0 : 0 ≤ playerCenterX g := (guard_center_bounds g h).1
  have htr : ratTrunc (ddaSetup g).ox = playerCenterX g := by
    rw [hox, ratTrunc_intCast]
  rcases setup_ssx_spec g with hssx | ⟨hssx, hdx, hS⟩
  · left
    rw [ddaSetup_st0_rlx, hssx]
    split_ifs <;> simp [LenF.scale]
  · have hnn := init_rl_nonneg (playerCenterX g) ht0 (ddaSetup g).ox (by rw [hox])
    have hspos : 0 ≤ (cell_size : ℚ) / |(ddaSetup g).dx| := by
      rw [cell_size_cast]
      positivity
    right
    rw [ddaSetup_st0_rlx, hssx, htr]
    split_ifs with h1 h2
    · exact ⟨_, rfl, hspos, by simp⟩
    · refine ⟨_, by rw [LenF.scale], ?_, by simp⟩
      exact mul_nonneg hnn.1 hspos
    · refine ⟨_, by rw [LenF.scale], ?_, by simp⟩
      exact mul_nonneg hnn.2 hspos

theorem setup_rly_inv (g : GameState) (h : aborts g = false) :
    (ddaSetup g).st0.rly = LenF.inf ∨
      ∃ q, (ddaSetup g).st0.rly = LenF.fin q ∧ 0 ≤ q ∧
        (ddaSetup g).ssy ≠ LenF.inf := by
  have hoy : (ddaSetup g).oy = ((playerCenterY g : Int) : ℚ) := ddaSetup_oy g
  have ht0 : 0 ≤ playerCenterY g := (guard_center_bounds g h).2.2.1
  have htr : ratTrunc (ddaSetup g).oy = playerCenterY g := by
    rw [hoy, ratTrunc_intCast]
  rcases setup_ssy_spec g with hssy | ⟨hssy, hdy, hS⟩
  · left
    rw [ddaSetup_st0_rly, hssy]
    split_ifs <;> simp [LenF.scale]
  · have hnn := init_rl_nonneg (playerCenterY g) ht0 (ddaSetup g).oy (by rw [hoy])
    have hspos : 0 ≤ (cell_size : ℚ) / |(ddaSetup g).dy| := by
      rw [cell_size_cast]
      positivity
    right
    rw [ddaSetup_st0_rly, hssy, htr]
    split_ifs with h1 h2
    · exact ⟨_, rfl, hspos, by simp⟩
    · refine ⟨_, by rw [LenF.scale], ?_, by simp⟩
      exact mul_nonneg hnn.1 hspos
    · refine ⟨_, by rw [LenF.scale], ?_, by simp⟩
      exact mul_nonneg hnn.2 hspos

theorem stepsLeft_le_301 (M : ℚ) (hM : 0 < M) (ss l : LenF)
    (hss : ∀ s, ss = LenF.fin s → 32 / M ≤ s)
    (hl : l = LenF.inf ∨ ∃ q, l = LenF.fin q ∧ 0 ≤ q ∧ ss ≠ LenF.inf) :
    stepsLeft M ss l ≤ 301 := by
  rcases hl with hl | ⟨q, hl, hq0, hssne⟩
  · rw [hl]
    cases ss <;> simp [stepsLeft]
  · obtain ⟨s, hs⟩ := LenF.exists_fin_of_ne_inf ss hssne
    have hsb := hss s hs
    have hspos : 0 < s := lt_of_lt_of_le (by positivity) hsb
    rw [hl, hs, stepsLeft]
    have hceil : ⌈(max_distance / M - q) / s⌉ ≤ 300 := by
      apply Int.ceil_le.mpr
      push_cast
      have hB0 : 0 ≤ max_distance / M := by
        rw [max_distance_val]
        positivity
      have h1 : (max_distance / M - q) / s ≤ (max_distance / M) / s :=
        (div_le_div_iff_of_pos_right hspos).mpr (by linarith)
      have h2 : (max_distance / M) / s ≤ (max_distance / M) / (32 / M) :=
        div_le_div_of_nonneg_left hB0 (by positivity) hsb
      have h3 : (max_distance / M) / (32 / M) = 300 := by
        rw [max_distance_val]
        field_simp
        ring
      linarith
    omega

end DDADemo
namespace DDADemo

set_option maxRecDepth 100000

theorem ltB_fin_zero (S : ℚ) : LenF.ltB S (LenF.fin 0) max_distance = true := by
  rw [LenF.ltB, max_distance_val]
  simp

theorem degenerate_run_isSome (g : GameState)
    (hdx : (ddaSetup g).dx = 0) (hdy : (ddaSetup g).dy = 0) :
    (ddaLoopRun g).isSome = true := by
  have hssx : (ddaSetup g).ssx = LenF.inf := by
    rw [ddaSetup_ssx, hdx]
    simp [sqrtOnePlusRatioSq, LenF.scale]
  have hssy : (ddaSetup g).ssy = LenF.inf := by
    rw [ddaSetup_ssy, hdy]
    simp [sqrtOnePlusRatioSq, LenF.scale]
  have hrlx : (ddaSetup g).st0.rlx = LenF.inf := by
    rw [ddaSetup_st0_rlx, hssx]
    split_ifs <;> simp [LenF.scale]
  have hrly : (ddaSetup g).st0.rly = LenF.inf := by
    rw [ddaSetup_st0_rly, hssy]
    split_ifs <;> simp [LenF.scale]
  have hdist : (ddaSetup g).st0.dist = LenF.fin 0 := ddaSetup_st0_dist g
  have hd' : (advance (ddaSetup g).stepx (ddaSetup g).stepy (ddaSetup g).ssx
      (ddaSetup g).ssy (ddaSetup g).st0).dist = LenF.inf := by
    rw [advance]
    rw [if_neg]
    · simp [hrly]
    · rw [hrlx]
      simp [LenF.lt]
  simp only [ddaLoopRun, ddaFuel]
  rw [show (1000 : Nat) = 999 + 1 from rfl]
  rcases hw : wallIndex g.board
      (advance (ddaSetup g).stepx (ddaSetup g).stepy (ddaSetup g).ssx
        (ddaSetup g).ssy (ddaSetup g).st0).mapx
      (advance (ddaSetup g).stepx (ddaSetup g).stepy (ddaSetup g).ssx
        (ddaSetup g).ssy (ddaSetup g).st0).mapy with _ | i
  · rw [ddaLoop_continue _ _ _ _ _ _ _ _ (by rw [hdist]; exact ltB_fin_zero _) hw]
    rw [show (999 : Nat) = 998 + 1 from rfl,
      ddaLoop_stop _ _ _ _ _ _ 998 _ (by rw [hd']; rfl)]
    simp
  · rw [ddaLoop_found _ _ _ _ _ _ _ _ _ (by rw [hdist]; exact ltB_fin_zero _) hw]
    simp

theorem dda_run_isSome (g : GameState) (h : aborts g = false) :
    (ddaLoopRun g).isSome = true := by
  by_cases hdeg : (ddaSetup g).dx = 0 ∧ (ddaSetup g).dy = 0
  · exact degenerate_run_isSome g hdeg.1 hdeg.2
  · have hne : (ddaSetup g).dx ≠ 0 ∨ (ddaSetup g).dy ≠ 0 := by
      by_contra hc
      push_neg at hc
      exact hdeg ⟨hc.1, hc.2⟩
    have hM : 0 < max |(ddaSetup g).dx| |(ddaSetup g).dy| := by
      rcases hne with hne | hne
      · exact lt_max_of_lt_left (abs_pos.mpr hne)
      · exact lt_max_of_lt_right (abs_pos.mpr hne)
    have hS : (max |(ddaSetup g).dx| |(ddaSetup g).dy|) ^ 2 ≤ (ddaSetup g).S := by
      rw [ddaSetup_S]
      rcases max_cases |(ddaSetup g).dx| |(ddaSetup g).dy| with ⟨hm, _⟩ | ⟨hm, _⟩ <;>
        rw [hm] <;> nlinarith [sq_abs (ddaSetup g).dx, sq_abs (ddaSetup g).dy,
          sq_nonneg (ddaSetup g).dx, sq_nonneg (ddaSetup g).dy]
    have hsx : ∀ s, (ddaSetup g).ssx = LenF.fin s →
        32 / max |(ddaSetup g).dx| |(ddaSetup g).dy| ≤ s := by
      intro s hs
      rcases setup_ssx_spec g with hspec | ⟨hspec, hdx, _⟩
      · rw [hspec] at hs
        exact absurd hs (by simp)
      · rw [hspec] at hs
        have hseq : s = (cell_size : ℚ) / |(ddaSetup g).dx| := by
          injection hs.symm
        rw [hseq, cell_size_cast]
        exact div_le_div_of_nonneg_left (by norm_num) (abs_pos.mpr hdx)
          (le_max_left _ _)
    have hsy : ∀ s, (ddaSetup g).ssy = LenF.fin s →
        32 / max |(ddaSetup g).dx| |(ddaSetup g).dy| ≤ s := by
      intro s hs
      rcases setup_ssy_spec g with hspec | ⟨hspec, hdy, _⟩
      · rw [hspec] at hs
        exact absurd hs (by simp)
      · rw [hspec] at hs
        have hseq : s = (cell_size : ℚ) / |(ddaSetup g).dy| := by
          injection hs.symm
        rw [hseq, cell_size_cast]
        exact div_le_div_of_nonneg_left (by norm_num) (abs_pos.mpr hdy)
          (le_max_right _ _)
    have hinvx := setup_rlx_inv g h
    have hinvy := setup_rly_inv g h
    have hfuel : stepsLeft (max |(ddaSetup g).dx| |(ddaSetup g).dy|)
        (ddaSetup g).ssx (ddaSetup g).st0.rlx +
        stepsLeft (max |(ddaSetup g).dx| |(ddaSetup g).dy|)
          (ddaSetup g).ssy (ddaSetup g).st0.rly + 2 ≤ 1000 := by
      have h1 := stepsLeft_le_301 _ hM _ _ hsx hinvx
      have h2 := stepsLeft_le_301 _ hM _ _ hsy hinvy
      omega
    have := ddaLoop_total g.board (ddaSetup g).S (ddaSetup g).stepx
      (ddaSetup g).stepy (ddaSetup g).ssx (ddaSetup g).ssy _ hM hS hsx hsy
      1000 (ddaSetup g).st0 hinvx hinvy hfuel
    simpa only [ddaLoopRun, ddaFuel] using this

/-- C5: every cast terminates.  For every game state that passes the
world-bounds guard, the traversal loop (run with fuel 1000, which bounds the
number of traversal steps) reaches an exit: either a wall is found, or the
distance ceiling `max_distance` is exceeded and the cast resolves to Miss,
reporting the intersection `(-1, -1)`. -/
theorem c5_cast_terminates (g : GameState) (h : aborts g = false) :
    ∃ r, ddaLoopRun g = some r ∧
      (r.1 = none → (dda g).dda_intersection = (-1, -1)) := by
  obtain ⟨r, hr⟩ := Option.isSome_iff_exists.mp (dda_run_isSome g h)
  refine ⟨r, hr, fun hnone => ?_⟩
  obtain ⟨fo, st⟩ := r
  simp only at hnone
  subst hnone
  simp [dda, h, hr]

/-- C5 witness: the cast from (100,100) toward (200,150) over the empty board
terminates (and resolves to Miss). -/
theorem c5_cast_terminates_witness :
    aborts (mkG 100 100 200 150 []) = false ∧
      ∃ r, ddaLoopRun (mkG 100 100 200 150 []) = some r ∧
        (r.1 = none →
          (dda (mkG 100 100 200 150 [])).dda_intersection = (-1, -1)) :=
  ⟨by decide, c5_cast_terminates (mkG 100 100 200 150 []) (by decide)⟩

end DDADemo
namespace DDADemo

set_option maxRecDepth 100000

theorem stepSize_coeff32 (d S : ℚ) (hd : d ≠ 0) (hS : 0 < S) :
    (sqrtOnePlusRatioSq (32 * d / S) S).scale 32 = LenF.fin (32 / |d|) := by
  have hne : 32 * d / S ≠ 0 := by
    apply div_ne_zero _ hS.ne'
    exact mul_ne_zero (by norm_num) hd
  rw [sqrtOnePlusRatioSq, if_neg hne, LenF.scale, cell_size_cast]
  congr 1
  have habs : |32 * d / S| = 32 * |d| / S := by
    rw [abs_div, abs_mul, abs_of_pos hS]
    norm_num
  rw [habs]
  have habsd : |d| ≠ 0 := abs_ne_zero.mpr hd
  field_simp
  ring

theorem ddaSetup_horizontal_right (g : GameState)
    (hdy : mouseCenterY g - playerCenterY g = 0)
    (hdx : 0 < mouseCenterX g - playerCenterX g) :
    ddaSetup g =
      { ox := ((playerCenterX g : Int) : ℚ),
        oy := ((playerCenterY g : Int) : ℚ),
        dx := ((mouseCenterX g - playerCenterX g : Int) : ℚ),
        dy := 0,
        S := ((mouseCenterX g - playerCenterX g : Int) : ℚ) ^ 2,
        ux := 1 / ((mouseCenterX g - playerCenterX g : Int) : ℚ),
        uy := 0,
        ssx := LenF.fin (32 / ((mouseCenterX g - playerCenterX g : Int) : ℚ)),
        ssy := LenF.inf,
        stepx := 32,
        stepy := 32,
        st0 := {
          mapx := playerCenterX g - Int.tmod (playerCenterX g) cell_size,
          mapy := playerCenterY g - Int.tmod (playerCenterY g) cell_size,
          rlx := LenF.fin
            ((((playerCenterX g - Int.tmod (playerCenterX g) cell_size +
                cell_size : Int) : ℚ) - ((playerCenterX g : Int) : ℚ)) /
              ((mouseCenterX g - playerCenterX g : Int) : ℚ)),
          rly := LenF.inf,
          dist := LenF.fin 0 } } := by
  have hdyQ : ((mouseCenterY g - playerCenterY g : Int) : ℚ) = 0 := by
    rw [hdy]
    simp
  have hdxQ : (0 : ℚ) < ((mouseCenterX g - playerCenterX g : Int) : ℚ) := by
    exact_mod_cast hdx
  have f1 : (0 : ℚ) < ((mouseCenterX g : Int) : ℚ) - ((playerCenterX g : Int) : ℚ) := by
    push_cast at hdxQ
    exact hdxQ
  have f2 : ((mouseCenterX g : Int) : ℚ) - ((playerCenterX g : Int) : ℚ) ≠ 0 :=
    ne_of_gt f1
  have f4 : (0 : ℚ) < 32 * (((mouseCenterX g : Int) : ℚ) - ((playerCenterX g : Int) : ℚ)) /
      (((mouseCenterX g : Int) : ℚ) - ((playerCenterX g : Int) : ℚ)) ^ 2 := by
    apply div_pos (by linarith) (by positivity)
  have f3 : ¬(32 * (((mouseCenterX g : Int) : ℚ) - ((playerCenterX g : Int) : ℚ)) /
      (((mouseCenterX g : Int) : ℚ) - ((playerCenterX g : Int) : ℚ)) ^ 2 < 0) := by
    linarith
  have f6 : sqrtOnePlusRatioSq
      (32 * (((mouseCenterX g : Int) : ℚ) - ((playerCenterX g : Int) : ℚ)) /
        (((mouseCenterX g : Int) : ℚ) - ((playerCenterX g : Int) : ℚ)) ^ 2)
      ((((mouseCenterX g : Int) : ℚ) - ((playerCenterX g : Int) : ℚ)) ^ 2) =
      LenF.fin (1 / (((mouseCenterX g : Int) : ℚ) - ((playerCenterX g : Int) : ℚ))) := by
    rw [sqrtOnePlusRatioSq, if_neg (ne_of_gt f4), cell_size_cast, abs_of_pos f4]
    congr 1
    rw [show (((mouseCenterX g : Int) : ℚ) - ((playerCenterX g : Int) : ℚ)) ^ 2 *
        (32 * (((mouseCenterX g : Int) : ℚ) - ((playerCenterX g : Int) : ℚ)) /
          (((mouseCenterX g : Int) : ℚ) - ((playerCenterX g : Int) : ℚ)) ^ 2) =
        32 * (((mouseCenterX g : Int) : ℚ) - ((playerCenterX g : Int) : ℚ)) by
      field_simp]
    rw [div_mul_eq_div_div]
    norm_num
  have f7 : ∀ SS : ℚ, sqrtOnePlusRatioSq 0 SS = LenF.inf := by
    intro SS
    simp [sqrtOnePlusRatioSq]
  have f7s : LenF.scale 32 LenF.inf = LenF.inf := rfl
  simp only [ddaSetup, hdyQ, cell_size_cast]
  norm_num [f3, f4, f6, f7, ratTrunc_intCast]
  simp only [cell_size_cast, show (cell_size : Int) = 32 from rfl]
  push_cast
  refine ⟨?_, ?_, f7s, trivial, ?_, ?_, ?_⟩
  · rw [pow_two]
    rw [div_mul_eq_div_div]
    rw [div_self f2]
    rw [one_div]
  · simp [LenF.scale, div_eq_mul_inv]
  · simp only [LenF.scale, FVal.mulUnitLen, FVal.addC, FVal.trunc]
    have hE : ((playerCenterX g : Int) : ℚ) +
        (((mouseCenterX g : Int) : ℚ) - ((playerCenterX g : Int) : ℚ)) /
          (((mouseCenterX g : Int) : ℚ) - ((playerCenterX g : Int) : ℚ)) ^ 2 *
          ((((playerCenterX g : Int) : ℚ) -
              ((Int.tmod (playerCenterX g) 32 : Int) : ℚ) + 32 -
              ((playerCenterX g : Int) : ℚ)) / 32 *
            (32 * (((mouseCenterX g : Int) : ℚ) -
              ((playerCenterX g : Int) : ℚ))⁻¹)) *
          (((mouseCenterX g : Int) : ℚ) - ((playerCenterX g : Int) : ℚ)) ^ 2 =
        ((playerCenterX g - Int.tmod (playerCenterX g) 32 + 32 : Int) : ℚ) := by
      push_cast
      field_simp
      ring
    rw [hE, ratTrunc_intCast]
    omega
  · simp only [LenF.scale]
    congr 1
    field_simp
  · simp [LenF.scale]

end DDADemo

namespace DDADemo

theorem ltB_true_of_le (S d bnd : ℚ) (h0 : 0 ≤ d) (hd : d ≤ bnd)
    (hb : bnd ^ 2 * S < max_distance ^ 2) (hS0 : 0 ≤ S) :
    LenF.ltB S (LenF.fin d) max_distance = true := by
  rw [LenF.ltB]
  have h1 : d ^ 2 ≤ bnd ^ 2 := by nlinarith
  have h2 : d ^ 2 * S ≤ bnd ^ 2 * S := mul_le_mul_of_nonneg_right h1 hS0
  have h : d ^ 2 * S < max_distance ^ 2 := lt_of_le_of_lt h2 hb
  simp [h]

theorem horiz_loop_right (board : List Cell) (S : ℚ) (stepy : Int) (ssy : LenF)
    (s : ℚ) (hS0 : 0 ≤ S) (hs0 : 0 ≤ s) :
    ∀ (K n : Nat) (st : TravState) (q d : ℚ) (i : Nat),
      st.rlx = LenF.fin q → st.rly = LenF.inf → st.dist = LenF.fin d →
      0 ≤ d → d ≤ q →
      (q + (K : ℚ) * s) ^ 2 * S < max_distance ^ 2 →
      (∀ j : Nat, j < K →
        wallIndex board (st.mapx + ((j : Int) + 1) * 32) st.mapy = none) →
      wallIndex board (st.mapx + ((K : Int) + 1) * 32) st.mapy = some i →
      K + 1 ≤ n →
      ddaLoop board S 32 stepy (LenF.fin s) ssy n st =
        some (some i,
          { mapx := st.mapx + ((K : Int) + 1) * 32, mapy := st.mapy,
            rlx := LenF.fin (q + ((K : ℚ) + 1) * s), rly := LenF.inf,
            dist := LenF.fin (q + (K : ℚ) * s) }) := by
  intro K
  induction K with
  | zero =>
    intro n st q d i hrlx hrly hdist hd0 hdq hbound hnone hfound hn
    rcases n with _ | m
    · omega
    · have hb' : q ^ 2 * S < max_distance ^ 2 := by
        have h0 : q + (0 : ℚ) * s = q := by ring
        simpa [h0] using hbound
      have hcheck : st.dist.ltB S max_distance = true := by
        rw [hdist]
        exact ltB_true_of_le S d q hd0 hdq hb' hS0
      have hadv : advance 32 stepy (LenF.fin s) ssy st =
          { st with mapx := st.mapx + 32, rlx := LenF.fin (q + s), dist := LenF.fin q } := by
        simp [advance, hrlx, hrly, LenF.lt, LenF.add]
      have hfound' : wallIndex board
          (advance 32 stepy (LenF.fin s) ssy st).mapx
          (advance 32 stepy (LenF.fin s) ssy st).mapy = some i := by
        rw [hadv]
        have h32 : st.mapx + 32 = st.mapx + ((0 : Int) + 1) * 32 := by ring
        simpa [h32] using hfound
      rw [ddaLoop_found _ _ _ _ _ _ m _ i hcheck hfound', hadv, hrly]
      simp only [Option.some.injEq, Prod.mk.injEq]
      refine ⟨trivial, ?_⟩
      have e1 : st.mapx + 32 = st.mapx + ((0 : Int) + 1) * 32 := by ring
      have e2 : q + s = q + ((0 : ℚ) + 1) * s := by ring
      have e3 : q = q + (0 : ℚ) * s := by ring
      rw [e1]
      rw [show LenF.fin (q + s) = LenF.fin (q + ((0 : ℚ) + 1) * s) by rw [← e2]]
      rw [show LenF.fin q = LenF.fin (q + (0 : ℚ) * s) by rw [← e3]]
      norm_num
  | succ K ihK =>
    intro n st q d i hrlx hrly hdist hd0 hdq hbound hnone hfound hn
    rcases n with _ | m
    · omega
    · have hqb : q ≤ q + ((K : ℚ) + 1) * s := by
        have : 0 ≤ ((K : ℚ) + 1) * s := by positivity
        linarith
      have hbound' : (q + ((K : ℚ) + 1) * s) ^ 2 * S < max_distance ^ 2 := by
        have hc : (q + ((K + 1 : ℕ) : ℚ) * s) = q + ((K : ℚ) + 1) * s := by
          push_cast
          ring
        rw [← hc]
        exact_mod_cast hbound
      have hcheck : st.dist.ltB S max_distance = true := by
        rw [hdist]
        exact ltB_true_of_le S d (q + ((K : ℚ) + 1) * s) hd0
          (le_trans hdq hqb) hbound' hS0
      have hadv : advance 32 stepy (LenF.fin s) ssy st =
          { st with mapx := st.mapx + 32, rlx := LenF.fin (q + s), dist := LenF.fin q } := by
        simp [advance, hrlx, hrly, LenF.lt, LenF.add]
      have hnone0 : wallIndex board
          (advance 32 stepy (LenF.fin s) ssy st).mapx
          (advance 32 stepy (LenF.fin s) ssy st).mapy = none := by
        rw [hadv]
        have h32 : st.mapx + 32 = st.mapx + ((0 : Int) + 1) * 32 := by ring
        simpa [h32] using hnone 0 (by omega)
      rw [ddaLoop_continue _ _ _ _ _ _ m _ hcheck hnone0, hadv]
      have hrec := ihK m
        { st with mapx := st.mapx + 32, rlx := LenF.fin (q + s), dist := LenF.fin q }
        (q + s) q i rfl (by simpa using hrly) rfl
        (le_trans hd0 hdq) (by linarith)
        (by
          have hc : (q + s + (K : ℚ) * s) = q + ((K + 1 : ℕ) : ℚ) * s := by
            push_cast
            ring
          rw [hc]
          exact hbound)
        (by
          intro j hj
          have hidx : st.mapx + 32 + ((j : Int) + 1) * 32 =
              st.mapx + (((j + 1 : ℕ) : Int) + 1) * 32 := by
            push_cast
            ring
          simpa [hidx] using hnone (j + 1) (by omega))
        (by
          have hidx : st.mapx + 32 + ((K : Int) + 1) * 32 =
              st.mapx + (((K + 1 : ℕ) : Int) + 1) * 32 := by
            push_cast
            ring
          simpa [hidx] using hfound)
        (by omega)
      rw [hrec]
      simp only [Option.some.injEq, Prod.mk.injEq]
      refine ⟨trivial, ?_⟩
      have e1 : st.mapx + 32 + ((K : Int) + 1) * 32 =
          st.mapx + (((K + 1 : ℕ) : Int) + 1) * 32 := by
        push_cast
        ring
      have e2 : q + s + ((K : ℚ) + 1) * s = q + (((K + 1 : ℕ) : ℚ) + 1) * s := by
        push_cast
        ring
      have e3 : q + s + (K : ℚ) * s = q + ((K + 1 : ℕ) : ℚ) * s := by
        push_cast
        ring
      rw [e1, show LenF.fin (q + s + ((K : ℚ) + 1) * s) =
          LenF.fin (q + (((K + 1 : ℕ) : ℚ) + 1) * s) by rw [e2],
        show LenF.fin (q + s + (K : ℚ) * s) =
          LenF.fin (q + ((K + 1 : ℕ) : ℚ) * s) by rw [e3]]

end DDADemo

namespace DDADemo

theorem wallIndex_grid (board : List Cell) (c r : Int) (hc : 0 ≤ c) (hr : 0 ≤ r)
    (hlt : r * cells_width + c < (board.length : Int)) :
    wallIndex board (c * 32) (r * 32) =
      (if (board.getD (r * cells_width + c).toNat cellD).is_wall then
        some (r * cells_width + c).toNat else none) := by
  have hx : Int.tdiv (c * 32) cell_size = c := by
    rw [show cell_size = 32 from rfl]
    exact Int.mul_tdiv_cancel c (by norm_num)
  have hy : Int.tdiv (r * 32) cell_size = r := by
    rw [show cell_size = 32 from rfl]
    exact Int.mul_tdiv_cancel r (by norm_num)
  have hnn : 0 ≤ r * cells_width + c := by
    have : (0 : Int) ≤ r * cells_width := by
      apply mul_nonneg hr
      rw [show cells_width = 30 from by decide]
      norm_num
    omega
  simp only [wallIndex, hx, hy]
  rw [if_pos ⟨hnn, hlt⟩]

end DDADemo
namespace DDADemo

set_option maxRecDepth 100000

theorem int_tdiv_nonneg (a b : Int) (ha : 0 ≤ a) (hb : 0 ≤ b) : 0 ≤ Int.tdiv a b :=
  Int.tdiv_nonneg ha hb

/-- C1 (amended, horizontal rightward casts): for a cast whose ray is
horizontal and points rightward, with the straight-line path's first wall cell
`(gx, gy)` lying strictly beyond the cell containing the origin (equivalently,
strictly after the first vertical grid-line crossing) and within the board,
the cast returns Hit with exactly that cell, the intersection point is the
cell's entering edge `(gx*cell_size, origin.y)`, and the reported distance
equals the Euclidean distance from the origin to that intersection point
(exactly, in the real-valued model). -/
theorem c1_horizontal_first_wall_hit (g : GameState)
    (hab : aborts g = false)
    (hdy : mouseCenterY g - playerCenterY g = 0)
    (hdx : 0 < mouseCenterX g - playerCenterX g)
    (gx gy : Int)
    (hgy : gy = Int.tdiv (playerCenterY g) cell_size)
    (hgybd : gy ≤ 19)
    (hgx : Int.tdiv (playerCenterX g) cell_size < gx)
    (hgxbd : gx ≤ 29)
    (hlen : g.board.length = 600)
    (hwall : (g.board.getD (gy * cells_width + gx).toNat cellD).is_wall = true)
    (hnowall : ∀ c : Int, Int.tdiv (playerCenterX g) cell_size < c → c < gx →
      (g.board.getD (gy * cells_width + c).toNat cellD).is_wall = false) :
    ddaFoundIdx g = some (gy * cells_width + gx).toNat ∧
    (dda g).dda_intersection =
      (((gx * cell_size : Int) : ℚ), ((playerCenterY g : Int) : ℚ)) ∧
    ∃ q : ℚ, ddaDist g = LenF.fin q ∧ 0 ≤ q ∧
      (q : ℝ) * Real.sqrt (((ddaSetup g).S : ℝ)) =
        Real.sqrt ((((gx * cell_size : Int) : ℝ) - ((playerCenterX g : Int) : ℝ)) ^ 2 +
          (((playerCenterY g : Int) : ℝ) - ((playerCenterY g : Int) : ℝ)) ^ 2) := by
  have hPX0 : 0 ≤ playerCenterX g := (guard_center_bounds g hab).1
  have hPY0 : 0 ≤ playerCenterY g := (guard_center_bounds g hab).2.2.1
  have hcell : cell_size = (32 : Int) := rfl
  have hc00 : 0 ≤ Int.tdiv (playerCenterX g) cell_size :=
    int_tdiv_nonneg _ _ hPX0 (by norm_num [cell_size])
  have hgy0 : 0 ≤ gy := by
    rw [hgy]
    exact int_tdiv_nonneg _ _ hPY0 (by norm_num [cell_size])
  have htmodlt : Int.tmod (playerCenterX g) 32 < 32 :=
    Int.tmod_lt_of_pos _ (by norm_num)
  have htmod0 : 0 ≤ Int.tmod (playerCenterX g) 32 :=
    Int.tmod_nonneg _ hPX0
  have htd := Int.tdiv_add_tmod (playerCenterX g) 32
  have htdY := Int.tdiv_add_tmod (playerCenterY g) 32
  have hmapx : playerCenterX g - Int.tmod (playerCenterX g) cell_size =
      32 * Int.tdiv (playerCenterX g) cell_size := by
    rw [hcell]
    omega
  have hmapy : playerCenterY g - Int.tmod (playerCenterY g) cell_size = 32 * gy := by
    rw [hgy, hcell]
    omega
  have hXQ : (0 : ℚ) < ((mouseCenterX g - playerCenterX g : Int) : ℚ) := by
    exact_mod_cast hdx
  have hXne : ((mouseCenterX g - playerCenterX g : Int) : ℚ) ≠ 0 := ne_of_gt hXQ
  have hPXlt : playerCenterX g < 32 * gx := by
    rw [hcell] at hgx
    omega
  have hsetup := ddaSetup_horizontal_right g hdy hdx
  set c0 : Int := Int.tdiv (playerCenterX g) cell_size with hc0
  set K : Nat := (gx - c0 - 1).toNat with hK
  have hKint : (K : Int) = gx - c0 - 1 := by
    rw [hK]
    exact Int.toNat_of_nonneg (by omega)
  set X : ℚ := ((mouseCenterX g - playerCenterX g : Int) : ℚ) with hX
  set q0 : ℚ := ((((playerCenterX g - Int.tmod (playerCenterX g) cell_size +
      cell_size : Int) : ℚ) - ((playerCenterX g : Int) : ℚ)) / X) with hq0
  have hc0Z : (32 : Int) * c0 + Int.tmod (playerCenterX g) 32 = playerCenterX g := by
    rw [hc0, hcell]
    omega
  have hq0pos : 0 < q0 := by
    rw [hq0]
    apply div_pos _ hXQ
    rw [hcell]
    push_cast
    have h2 : ((Int.tmod (playerCenterX g) 32 : Int) : ℚ) < 32 := by
      exact_mod_cast htmodlt
    push_cast at h2
    linarith
  have hKQ : (K : ℚ) = (gx : ℚ) - ((c0 : Int) : ℚ) - 1 := by
    have h := congrArg (fun z : Int => (z : ℚ)) hKint
    push_cast at h
    push_cast
    linarith
  have hPXsum : 32 * ((c0 : Int) : ℚ) +
      ((Int.tmod (playerCenterX g) 32 : Int) : ℚ) = ((playerCenterX g : Int) : ℚ) := by
    exact_mod_cast congrArg (fun z : Int => (z : ℚ)) hc0Z
  have hqsum : q0 + (K : ℚ) * (32 / X) =
      ((32 * gx - playerCenterX g : Int) : ℚ) / X := by
    have hstep : q0 + (K : ℚ) * (32 / X) =
        ((((playerCenterX g - Int.tmod (playerCenterX g) cell_size +
          cell_size : Int) : ℚ) - ((playerCenterX g : Int) : ℚ)) + (K : ℚ) * 32) / X := by
      rw [hq0]
      field_simp
    rw [hstep]
    congr 1
    rw [hcell]
    push_cast
    push_cast at hKQ hPXsum
    linarith
  set V : ℚ := ((32 * gx - playerCenterX g : Int) : ℚ) with hV
  have hV0 : (0 : ℚ) < V := by
    rw [hV]
    exact_mod_cast (by omega : (0 : Int) < 32 * gx - playerCenterX g)
  have hVle : V ≤ 928 := by
    rw [hV]
    exact_mod_cast (by omega : 32 * gx - playerCenterX g ≤ 928)
  have hbound : (q0 + (K : ℚ) * (32 / X)) ^ 2 * X ^ 2 < max_distance ^ 2 := by
    rw [hqsum, max_distance_val]
    have hid : (V / X) ^ 2 * X ^ 2 = V ^ 2 := by
      field_simp
    rw [hid]
    nlinarith
  -- wall-test facts along the row
  have hwnone : ∀ j : Nat, j < K →
      wallIndex g.board ((playerCenterX g - Int.tmod (playerCenterX g) cell_size) +
        ((j : Int) + 1) * 32) (playerCenterY g - Int.tmod (playerCenterY g) cell_size)
        = none := by
    intro j hj
    have hjK : (j : Int) < (K : Int) := by exact_mod_cast hj
    rw [hmapx, hmapy]
    rw [show 32 * c0 + ((j : Int) + 1) * 32 = (c0 + (j : Int) + 1) * 32 by ring,
      show (32 : Int) * gy = gy * 32 by ring]
    rw [wallIndex_grid g.board (c0 + (j : Int) + 1) gy (by omega) hgy0
      (by
        rw [hlen, show cells_width = (30 : Int) from by decide]
        push_cast
        omega)]
    rw [if_neg]
    rw [hnowall (c0 + (j : Int) + 1) (by omega) (by omega)]
    simp
  have hwfound : wallIndex g.board
      ((playerCenterX g - Int.tmod (playerCenterX g) cell_size) +
        ((K : Int) + 1) * 32) (playerCenterY g - Int.tmod (playerCenterY g) cell_size)
      = some (gy * cells_width + gx).toNat := by
    rw [hmapx, hmapy]
    rw [show 32 * c0 + ((K : Int) + 1) * 32 = (c0 + (K : Int) + 1) * 32 by ring,
      show (32 : Int) * gy = gy * 32 by ring]
    rw [show c0 + (K : Int) + 1 = gx by omega]
    rw [wallIndex_grid g.board gx gy (by omega) hgy0
      (by
        rw [hlen, show cells_width = (30 : Int) from by decide]
        push_cast
        omega)]
    rw [if_pos hwall]
  have hloop := horiz_loop_right g.board (X ^ 2) 32 LenF.inf (32 / X)
    (by positivity) (le_of_lt (div_pos (by norm_num) hXQ)) K 1000
    { mapx := playerCenterX g - Int.tmod (playerCenterX g) cell_size,
      mapy := playerCenterY g - Int.tmod (playerCenterY g) cell_size,
      rlx := LenF.fin q0, rly := LenF.inf, dist := LenF.fin 0 }
    q0 0 (gy * cells_width + gx).toNat rfl rfl rfl le_rfl (le_of_lt hq0pos)
    hbound hwnone hwfound (by omega)
  have hrunEq : ddaLoopRun g =
      some (some (gy * cells_width + gx).toNat,
        { mapx := (playerCenterX g - Int.tmod (playerCenterX g) cell_size) +
            ((K : Int) + 1) * 32,
          mapy := playerCenterY g - Int.tmod (playerCenterY g) cell_size,
          rlx := LenF.fin (q0 + ((K : ℚ) + 1) * (32 / X)), rly := LenF.inf,
          dist := LenF.fin (q0 + (K : ℚ) * (32 / X)) }) := by
    simp only [ddaLoopRun, ddaFuel]
    rw [hsetup]
    exact hloop
  refine ⟨?_, ?_, ?_⟩
  · simp [ddaFoundIdx, hab, hrunEq]
  · simp only [dda, hab, Bool.false_eq_true, if_false, hrunEq]
    simp only [hsetup, hitPoint, hqsum]
    simp only [Prod.mk.injEq]
    constructor
    · rw [hcell]
      push_cast
      push_cast at hV
      rw [hV]
      field_simp
      ring
    · ring
  · refine ⟨V / X, ?_, le_of_lt (div_pos hV0 hXQ), ?_⟩
    · simp only [ddaDist, hab, Bool.false_eq_true, if_false, hrunEq]
      rw [hqsum]
    · have hSR : ((ddaSetup g).S : ℝ) = ((X : ℝ)) ^ 2 := by
        rw [hsetup]
        push_cast
        ring
      rw [hSR, Real.sqrt_sq (by positivity : (0 : ℝ) ≤ (X : ℝ))]
      have hXR : (0 : ℝ) < (X : ℝ) := by exact_mod_cast hXQ
      have hVR : (0 : ℝ) ≤ (V : ℝ) := by exact_mod_cast le_of_lt hV0
      have hgoalr : (((V / X : ℚ)) : ℝ) * (X : ℝ) = (V : ℝ) := by
        push_cast
        field_simp
      rw [hgoalr]
      have hpt : (((gx * cell_size : Int) : ℝ) - ((playerCenterX g : Int) : ℝ)) = (V : ℝ) := by
        rw [hcell, hV]
        push_cast
        ring
      rw [hpt]
      rw [show (((playerCenterY g : Int) : ℝ) - ((playerCenterY g : Int) : ℝ)) = 0 by ring]
      rw [show (V : ℝ) ^ 2 + (0 : ℝ) ^ 2 = (V : ℝ) ^ 2 by ring]
      rw [Real.sqrt_sq hVR]

end DDADemo
namespace DDADemo

set_option maxRecDepth 100000

/-- C1 witness scenario: the spec's concrete scenario — origin (0,176), target
(640,176), single wall at grid cell (10,5) — hits that cell (flat index 160)
with intersection point (320,176). -/
theorem c1_horizontal_first_wall_hit_witness :
    ddaFoundIdx (mkG 0 176 640 176 [(10, 5)]) = some 160 ∧
    (dda (mkG 0 176 640 176 [(10, 5)])).dda_intersection = ((320 : ℚ), (176 : ℚ)) := by
  have h := c1_horizontal_first_wall_hit (mkG 0 176 640 176 [(10, 5)])
    (by decide) (by decide) (by decide) 10 5 (by decide) (by decide) (by decide)
    (by decide) (by decide) (by decide)
    (by
      intro c h1 h2
      have hb : Int.tdiv (playerCenterX (mkG 0 176 640 176 [(10, 5)])) cell_size = 0 := by
        decide
      rw [hb] at h1
      interval_cases c <;> decide)
  obtain ⟨h1, h2, -⟩ := h
  have hpy : playerCenterY (mkG 0 176 640 176 [(10, 5)]) = 176 := by decide
  refine ⟨?_, ?_⟩
  · rw [h1]
    rfl
  · rw [h2, hpy]
    norm_num [cell_size]

/-- C1 counterexample: the universal claim fails.  With walls at grid cells
(10,5) and (12,5) and the cast origin (330,170) strictly inside wall cell
(10,5) — which is therefore the straight-line path's first wall cell, at
distance 0 — the cast does not return that cell: the traversal only tests
cells entered after the first grid-line crossing, skips the origin's own wall
cell, and reports the wall at flat index 162 (cell (12,5)) instead of flat
index 160 (cell (10,5)). -/
theorem c1_counterexample :
    ((mkG 330 170 400 170 [(10, 5), (12, 5)]).board.getD 160 cellD).is_wall = true ∧
    ((mkG 330 170 400 170 [(10, 5), (12, 5)]).board.getD 160 cellD).rect.x
        ≤ playerCenterX (mkG 330 170 400 170 [(10, 5), (12, 5)]) ∧
    playerCenterX (mkG 330 170 400 170 [(10, 5), (12, 5)]) <
      ((mkG 330 170 400 170 [(10, 5), (12, 5)]).board.getD 160 cellD).rect.x +
        ((mkG 330 170 400 170 [(10, 5), (12, 5)]).board.getD 160 cellD).rect.w ∧
    ((mkG 330 170 400 170 [(10, 5), (12, 5)]).board.getD 160 cellD).rect.y
        ≤ playerCenterY (mkG 330 170 400 170 [(10, 5), (12, 5)]) ∧
    playerCenterY (mkG 330 170 400 170 [(10, 5), (12, 5)]) <
      ((mkG 330 170 400 170 [(10, 5), (12, 5)]).board.getD 160 cellD).rect.y +
        ((mkG 330 170 400 170 [(10, 5), (12, 5)]).board.getD 160 cellD).rect.h ∧
    ddaFoundIdx (mkG 330 170 400 170 [(10, 5), (12, 5)]) = some 162 ∧
    (162 : Nat) ≠ 160 := by
  have hab : aborts (mkG 330 170 400 170 [(10, 5), (12, 5)]) = false := by decide
  refine ⟨by decide, by decide, by decide, by decide, by decide, ?_, by decide⟩
  simp [ddaFoundIdx, hab, c1cex_run]

theorem c7tie_setup : ddaSetup (mkG 16 16 48 48 []) =
    { ox := 16, oy := 16, dx := 32, dy := 32, S := 2048, ux := (1/64), uy := (1/64),
      ssx := LenF.fin 1, ssy := LenF.fin 1, stepx := 32, stepy := 32,
      st0 := ⟨0, 0, LenF.fin (1/2), LenF.fin (1/2), LenF.fin 0⟩ } := by
  have hpx : playerCenterX (mkG 16 16 48 48 []) = 16 := by decide
  have hpy : playerCenterY (mkG 16 16 48 48 []) = 16 := by decide
  have hmx : mouseCenterX (mkG 16 16 48 48 []) = 48 := by decide
  have hmy : mouseCenterY (mkG 16 16 48 48 []) = 48 := by decide
  have ht1 : Int.tmod (16 : Int) 32 = 16 := by decide
  norm_num [ddaSetup, hpx, hpy, hmx, hmy, ht1, ratTrunc,
    sqrtOnePlusRatioSq, LenF.scale, LenF.lt, FVal.addC, FVal.mulUnitLen,
    FVal.trunc, cell_size, abs_of_pos, abs_of_neg, Rat.num_ofNat, Rat.den_ofNat,
    Int.tdiv_one]

/-- C7 counterexample: the claim's tie-break clause fails.  In the reachable
diagonal cast from (16,16) toward (48,48) the initial state has exactly tied
accumulators (both 1/2), yet the loop body advances only the `y` axis: the `x`
map coordinate and the `x` accumulator are left unchanged, so neither "both
axes advance" nor "the x axis advances" holds on an exact tie. -/
theorem c7_counterexample :
    (ddaSetup (mkG 16 16 48 48 [])).st0.rlx = (ddaSetup (mkG 16 16 48 48 [])).st0.rly ∧
    advance (ddaSetup (mkG 16 16 48 48 [])).stepx (ddaSetup (mkG 16 16 48 48 [])).stepy
        (ddaSetup (mkG 16 16 48 48 [])).ssx (ddaSetup (mkG 16 16 48 48 [])).ssy
        (ddaSetup (mkG 16 16 48 48 [])).st0
      = ⟨0, 32, LenF.fin (1/2), LenF.fin (3/2), LenF.fin (1/2)⟩ ∧
    (⟨0, 32, LenF.fin (1/2), LenF.fin (3/2), LenF.fin (1/2)⟩ : TravState).mapx
      = (ddaSetup (mkG 16 16 48 48 [])).st0.mapx ∧
    (⟨0, 32, LenF.fin (1/2), LenF.fin (3/2), LenF.fin (1/2)⟩ : TravState).mapy
      ≠ (ddaSetup (mkG 16 16 48 48 [])).st0.mapy ∧
    (⟨0, 32, LenF.fin (1/2), LenF.fin (3/2), LenF.fin (1/2)⟩ : TravState).rlx
      = (ddaSetup (mkG 16 16 48 48 [])).st0.rlx := by
  rw [c7tie_setup]
  refine ⟨rfl, ?_, rfl, by decide, rfl⟩
  norm_num [advance, LenF.lt, LenF.add]

end DDADemo
